import Mathlib

/-!
Verification of the EntS compiler (preprocessor, parser, code generator)
against its natural-language specification.

The development shallowly embeds the C++ sources:
  * `src/src/preprocessor.cpp` (preprocessing, include resolution),
  * `src/src/parser.cpp` (recursive-descent parser over the token vector),
  * `src/src/codegenerator.cpp` (tree-walking x86-64 code generator over the
    AST of `src/unnamed/part_005`).

Side effects are modelled explicitly: `printFatal` / `printError` /
`throw std::runtime_error` all terminate the compilation, and are modelled
as `Except.error` carrying the diagnostic message.  Loops whose bound is
not structural carry an explicit fuel argument; exhausted fuel yields the
distinguished error `fuelMsg`, which no source-level failure produces, so
`.error fuelMsg` is observationally "the run did not terminate within the
given budget".
-/

namespace EntS

/-- Distinguished marker for fuel exhaustion (models non-termination of a
C++ loop; no source diagnostic ever equals this string). -/
def fuelMsg : String := "<loop did not terminate within the given fuel>"

/-! ## Decimal printing (model of `std::to_string`) and digit parsing -/

/-- Decimal digit character for `d < 10` (models the digits produced by
`std::to_string`). -/
def digitChar (d : Nat) : Char := Char.ofNat (48 + d)

/-- Decimal digit list, most significant first; the fuel only bounds the
digit count and is always sufficient in `natDigits`. -/
def natDigitsGo : Nat → Nat → List Char
  | 0, _ => []
  | fuel + 1, n =>
    if n < 10 then [digitChar n]
    else natDigitsGo fuel (n / 10) ++ [digitChar (n % 10)]

/-- Decimal digit list of a natural number, most significant first, as
produced by `std::to_string`. -/
def natDigits (n : Nat) : List Char := natDigitsGo (n + 1) n

/-- Model of `std::to_string` on `int` values. -/
def intToStr (i : Int) : String :=
  if i < 0 then "-" ++ String.mk (natDigits (-i).toNat)
  else String.mk (natDigits i.toNat)

/-- Value of a decimal digit character, if it is one. -/
def digitVal (c : Char) : Option Nat :=
  if 48 ≤ c.toNat ∧ c.toNat ≤ 57 then some (c.toNat - 48) else none

/-- Parse a (non-empty interpretation of a) digit string back to a number;
`none` if any character is not a decimal digit. -/
def digitsVal (cs : List Char) : Option Nat :=
  cs.foldl (fun acc c =>
    match acc, digitVal c with
    | some a, some d => some (10 * a + d)
    | _, _ => none) (some 0)

theorem digitVal_digitChar (d : Nat) (h : d < 10) : digitVal (digitChar d) = some d := by
  interval_cases d <;> decide

theorem digitsVal_append_digit (cs : List Char) (a d : Nat)
    (hcs : digitsVal cs = some a) (hd : d < 10) :
    digitsVal (cs ++ [digitChar d]) = some (10 * a + d) := by
  unfold digitsVal at hcs ⊢
  rw [List.foldl_append, hcs]
  simp only [List.foldl_cons, List.foldl_nil, digitVal_digitChar d hd]

theorem digitsVal_natDigitsGo (f : Nat) :
    ∀ n : Nat, n < f → digitsVal (natDigitsGo f n) = some n := by
  induction f with
  | zero => intro n hn; omega
  | succ f ih =>
    intro n hn
    unfold natDigitsGo
    by_cases h : n < 10
    · rw [if_pos h]
      unfold digitsVal
      simp [digitVal_digitChar n h]
    · rw [if_neg h]
      have hdiv : n / 10 < n := Nat.div_lt_self (by omega) (by omega)
      have := digitsVal_append_digit (natDigitsGo f (n / 10)) (n / 10) (n % 10)
        (ih (n / 10) (by omega)) (Nat.mod_lt _ (by omega))
      rw [this, Nat.div_add_mod]

theorem digitsVal_natDigits (n : Nat) : digitsVal (natDigits n) = some n :=
  digitsVal_natDigitsGo (n + 1) n (by omega)

theorem intToStr_nonneg_data (i : Int) (h : 0 ≤ i) :
    (intToStr i).data = natDigits i.toNat := by
  unfold intToStr
  rw [if_neg (by omega)]

/-! ## Stack-pointer accounting of emitted assembly lines

`lineDelta` reads the effect of one emitted instruction on `rsp`
(positive = `rsp` grows).  The generator only ever moves `rsp` through
`push rax`, `pop rbx`, `sub rsp, N` and `add rsp, N`, so these four shapes
are the only ones recognised. -/

def lineDeltaChars (l : List Char) : Int :=
  if l = "push rax".data then -8
  else if l = "pop rbx".data then 8
  else if l.take 9 = "sub rsp, ".data then -(((digitsVal (l.drop 9)).getD 0 : Nat) : Int)
  else if l.take 9 = "add rsp, ".data then (((digitsVal (l.drop 9)).getD 0 : Nat) : Int)
  else 0

def lineDelta (l : String) : Int := lineDeltaChars l.data

/-- Net `rsp` effect of a list of emitted lines, read linearly. -/
def deltaL (ls : List String) : Int := (ls.map lineDelta).sum

theorem deltaL_nil : deltaL [] = 0 := rfl

theorem deltaL_append (a b : List String) : deltaL (a ++ b) = deltaL a + deltaL b := by
  unfold deltaL
  rw [List.map_append, List.sum_append]

theorem deltaL_cons (x : String) (b : List String) :
    deltaL (x :: b) = lineDelta x + deltaL b := by
  unfold deltaL
  rw [List.map_cons, List.sum_cons]

/-- Any line whose first character is not `p`, `s` or `a` has no `rsp`
effect. -/
theorem lineDeltaChars_head (c : Char) (r : List Char)
    (h1 : c ≠ 'p') (h2 : c ≠ 's') (h3 : c ≠ 'a') :
    lineDeltaChars (c :: r) = 0 := by
  unfold lineDeltaChars
  rw [if_neg, if_neg, if_neg, if_neg]
  · intro hc
    rw [show "add rsp, ".data = 'a' :: "dd rsp, ".data from rfl] at hc
    have : (c :: r).take 9 = c :: r.take 8 := by simp [List.take]
    rw [this] at hc
    exact h3 (List.cons.injEq .. ▸ hc).1
  · intro hc
    rw [show "sub rsp, ".data = 's' :: "ub rsp, ".data from rfl] at hc
    have : (c :: r).take 9 = c :: r.take 8 := by simp [List.take]
    rw [this] at hc
    exact h2 (List.cons.injEq .. ▸ hc).1
  · intro hc
    rw [show "pop rbx".data = 'p' :: "op rbx".data from rfl] at hc
    exact h1 (List.cons.injEq .. ▸ hc).1
  · intro hc
    rw [show "push rax".data = 'p' :: "ush rax".data from rfl] at hc
    exact h1 (List.cons.injEq .. ▸ hc).1

/-- Lines built by appending anything to a prefix that starts with a
neutral character have no `rsp` effect. -/
theorem lineDelta_prefix_zero (p rest : String) (c : Char) (cs : List Char)
    (hp : p.data = c :: cs) (h1 : c ≠ 'p') (h2 : c ≠ 's') (h3 : c ≠ 'a') :
    lineDelta (p ++ rest) = 0 := by
  unfold lineDelta
  rw [String.data_append, hp]
  exact lineDeltaChars_head c (cs ++ rest.data) h1 h2 h3

theorem lineDelta_sub (k : Int) (h : 0 ≤ k) :
    lineDelta ("sub rsp, " ++ intToStr k) = -k := by
  unfold lineDelta
  rw [String.data_append, intToStr_nonneg_data k h]
  unfold lineDeltaChars
  have hlen : ("sub rsp, ".data).length = 9 := by decide
  rw [if_neg, if_neg, if_pos, ← hlen, List.drop_left, digitsVal_natDigits]
  · simp [Int.toNat_of_nonneg h]
  · rw [← hlen]
    exact List.take_left _ _
  · intro hc
    have hlc := congrArg List.length hc
    rw [List.length_append, hlen] at hlc
    have : ("pop rbx".data).length = 7 := by decide
    omega
  · intro hc
    have hlc := congrArg List.length hc
    rw [List.length_append, hlen] at hlc
    have : ("push rax".data).length = 8 := by decide
    omega

theorem lineDelta_add (k : Int) (h : 0 ≤ k) :
    lineDelta ("add rsp, " ++ intToStr k) = k := by
  unfold lineDelta
  rw [String.data_append, intToStr_nonneg_data k h]
  unfold lineDeltaChars
  have hlen : ("add rsp, ".data).length = 9 := by decide
  have htake : ("add rsp, ".data ++ natDigits k.toNat).take 9 = "add rsp, ".data := by
    rw [← hlen]; exact List.take_left _ _
  rw [if_neg, if_neg, if_neg, if_pos htake, ← hlen, List.drop_left, digitsVal_natDigits]
  · simp [Int.toNat_of_nonneg h]
  · rw [htake]
    decide
  · intro hc
    have hlc := congrArg List.length hc
    rw [List.length_append, hlen] at hlc
    have : ("pop rbx".data).length = 7 := by decide
    omega
  · intro hc
    have hlc := congrArg List.length hc
    rw [List.length_append, hlen] at hlc
    have : ("push rax".data).length = 8 := by decide
    omega


/-! ## Type tables: typedefs and struct definitions

`typedefs : unordered_map<string,string>` and
`structDefinitions : unordered_map<string, vector<string>>` are modelled as
association lists with exact-key lookup (`List.lookup`), matching
`unordered_map::find`.  A struct's entry lists its member *types* in
declaration order, which is what `CodeGenerator::resolveTypeSize` iterates
over. -/

abbrev Typedefs := List (String × String)

abbrev Structs := List (String × List String)

/-- `CodeGenerator::resolveTypeName` (codegenerator.cpp:530-536): a single
lookup in the typedefs table; unmapped names are returned unchanged. -/
def resolveTypeName (typedefs : Typedefs) (type : String) : String :=
  match typedefs.lookup type with
  | some v => v
  | none => type

/-- `CodeGenerator::resolveTypeSize` (codegenerator.cpp:28-44), with an
explicit recursion-depth fuel (the C++ recursion is unbounded and would
overflow the stack on a cyclic struct table).  `printFatal("Unknown type
size")` terminates compilation and is modelled as `.error`. -/
def resolveTypeSizeF (fuel : Nat) (typedefs : Typedefs) (structs : Structs)
    (type : String) : Except String Int :=
  match fuel with
  | 0 => .error fuelMsg
  | fuel + 1 =>
    let resolvedType := resolveTypeName typedefs type
    if resolvedType = "int8" ∨ resolvedType = "uint8" ∨ resolvedType = "char" then .ok 1
    else if resolvedType = "int16" ∨ resolvedType = "uint16" then .ok 2
    else if resolvedType = "int32" ∨ resolvedType = "uint32" ∨ resolvedType = "float" then .ok 4
    else if resolvedType = "int64" ∨ resolvedType = "uint64" ∨ resolvedType = "double" then .ok 8
    else
      match structs.lookup resolvedType with
      | some members =>
        members.foldlM (fun acc m => (resolveTypeSizeF fuel typedefs structs m).map (acc + ·)) 0
      | none => .error "Unknown type size"

/-- `resolveTypeSize` with fuel sufficient for every acyclic struct table:
a resolution chain visits each struct key at most once, so depth
`structs.length + 1` suffices; cyclic tables (stack overflow in the C++)
exhaust the fuel instead. -/
def resolveTypeSize (typedefs : Typedefs) (structs : Structs) (type : String) :
    Except String Int :=
  resolveTypeSizeF (structs.length + 1) typedefs structs type

/-! ### The parser's typedef registration, modelled from the spec

The parser code that populates the `typedefs` table is not under `src/`:
`src/src/parser.hpp` declares `typedefs`, `getTypedefs()` and
`resolveTypedef`, and `main.cpp` passes `parser.getTypedefs()` to the code
generator, but no definition in `src/` ever inserts into the map
(`parseTypedef` in `src/src/parser.cpp` builds only the AST node). -/

/-- The twelve built-in type names, as seeded into the parser's
`existing_types` (src/src/parser.hpp). -/
def builtinTypes : List String :=
  ["void", "char", "float", "bool", "int8", "int16", "int32", "int64",
   "uint8", "uint16", "uint32", "uint64"]

/-- A name the parser would accept as an existing type at this point:
a built-in, or one already registered in the typedefs table. -/
def knownType (tds : Typedefs) (t : String) : Prop :=
  t ∈ builtinTypes ∨ tds.lookup t ≠ none

instance (tds : Typedefs) (t : String) : Decidable (knownType tds t) := by
  unfold knownType
  infer_instance

/-- Modelled from the spec: one `typedef` registration.  The missing parser
code is `typedefs[NEWTYPE] = struct` (struct typedef, `old = none`) or
`typedefs[NEWTYPE] = canonical_of(OLDTYPE)` (alias typedef,
`old = some OLDTYPE`), guarded by the spec's side conditions that `OLDTYPE`
is an existing type, `NEWTYPE` is not, and the sentinel `struct` is not a
declarable type name.  Ill-formed declarations (rejected by the parser)
leave the table unchanged. -/
def typedefInsert (tds : Typedefs) (newName : String) (old : Option String) : Typedefs :=
  match old with
  | some o =>
    if knownType tds o ∧ ¬knownType tds newName ∧ newName ≠ "struct" then
      tds ++ [(newName, resolveTypeName tds o)]
    else tds
  | none =>
    if ¬knownType tds newName ∧ newName ≠ "struct" then
      tds ++ [(newName, "struct")]
    else tds

/-- Modelled from the spec: the typedefs table produced by a program's
sequence of typedef declarations, in order. -/
def buildTypedefs (decls : List (String × Option String)) : Typedefs :=
  decls.foldl (fun tds d => typedefInsert tds d.1 d.2) []

/-- Invariant of parser-built typedef tables: every stored value is a
built-in type name or the sentinel `struct`, and no key is. -/
def canonicalTable (tds : Typedefs) : Prop :=
  ∀ kv ∈ tds, (kv.2 ∈ builtinTypes ∨ kv.2 = "struct") ∧
    ¬(kv.1 ∈ builtinTypes ∨ kv.1 = "struct")

theorem lookup_eq_none_of_not_key {tds : Typedefs} {t : String}
    (h : ∀ kv ∈ tds, kv.1 ≠ t) : tds.lookup t = none := by
  induction tds with
  | nil => rfl
  | cons kv rest ih =>
    have hk : kv.1 ≠ t := h kv (List.mem_cons_self kv rest)
    have hbeq : (t == kv.1) = false := beq_eq_false_iff_ne.mpr (fun he => hk he.symm)
    simp only [List.lookup, hbeq]
    exact ih (fun kv' hkv' => h kv' (List.mem_cons_of_mem kv hkv'))

theorem lookup_mem {tds : Typedefs} {t v : String}
    (h : tds.lookup t = some v) : (t, v) ∈ tds := by
  induction tds with
  | nil => simp [List.lookup] at h
  | cons kv rest ih =>
    by_cases hk : t = kv.1
    · have hbeq : (t == kv.1) = true := beq_iff_eq.mpr hk
      simp only [List.lookup, hbeq] at h
      cases h
      subst hk
      simp
    · have hbeq : (t == kv.1) = false := beq_eq_false_iff_ne.mpr hk
      simp only [List.lookup, hbeq] at h
      exact List.mem_cons_of_mem kv (ih h)

theorem typedefInsert_canonical (tds : Typedefs) (newName : String) (old : Option String)
    (h : canonicalTable tds) : canonicalTable (typedefInsert tds newName old) := by
  cases old with
  | some o =>
    by_cases hg : knownType tds o ∧ ¬knownType tds newName ∧ newName ≠ "struct"
    · simp only [typedefInsert]
      rw [if_pos hg]
      intro kv hkv
      rcases List.mem_append.mp hkv with hold | hnew
      · exact h kv hold
      · have hkv2 : kv = (newName, resolveTypeName tds o) := by simpa using hnew
        subst hkv2
        constructor
        · unfold resolveTypeName
          rcases ho : tds.lookup o with _ | v
          · rcases hg.1 with hb | hl
            · exact Or.inl hb
            · exact absurd ho hl
          · exact (h (o, v) (lookup_mem ho)).1
        · intro hcon
          rcases hcon with hb | hs
          · exact hg.2.1 (Or.inl hb)
          · exact hg.2.2 hs
    · simp only [typedefInsert]
      rw [if_neg hg]
      exact h
  | none =>
    by_cases hg : ¬knownType tds newName ∧ newName ≠ "struct"
    · simp only [typedefInsert]
      rw [if_pos hg]
      intro kv hkv
      rcases List.mem_append.mp hkv with hold | hnew
      · exact h kv hold
      · have hkv2 : kv = (newName, "struct") := by simpa using hnew
        subst hkv2
        refine ⟨Or.inr rfl, ?_⟩
        intro hcon
        rcases hcon with hb | hs
        · exact hg.1 (Or.inl hb)
        · exact hg.2 hs
    · simp only [typedefInsert]
      rw [if_neg hg]
      exact h

theorem buildTypedefs_canonical (decls : List (String × Option String)) :
    canonicalTable (buildTypedefs decls) := by
  unfold buildTypedefs
  suffices hgen : ∀ (tds : Typedefs), canonicalTable tds →
      canonicalTable (decls.foldl (fun tds d => typedefInsert tds d.1 d.2) tds) by
    exact hgen [] (by intro kv hkv; cases hkv)
  induction decls with
  | nil => intro tds h; exact h
  | cons d rest ih =>
    intro tds h
    exact ih _ (typedefInsert_canonical tds d.1 d.2 h)

/-- On a canonical table, one-step resolution is already transitive: its
result is a fixed point of `resolveTypeName`. -/
theorem resolveTypeName_fixed_of_canonical (tds : Typedefs) (h : canonicalTable tds)
    (t : String) :
    resolveTypeName tds (resolveTypeName tds t) = resolveTypeName tds t := by
  unfold resolveTypeName
  rcases ht : tds.lookup t with _ | v
  · rw [ht]
  · have hv := (h (t, v) (lookup_mem ht)).1
    have hn : tds.lookup v = none := by
      apply lookup_eq_none_of_not_key
      intro kv hkv hk
      have hkey := (h kv hkv).2
      rw [hk] at hkey
      exact hkey hv
    rw [hn]

/-! ## The AST (src/unnamed/part_005, ast.hpp)

The C++ tree is a class hierarchy under `ASTNode` with an untyped
`ASTNodePtr` and per-visit `dynamic_cast`s.  It is embedded as one
inductive; a failed `dynamic_cast` at a call site corresponds to a
constructor mismatch at the matching point. -/

inductive Node where
  | program (functions : List Node)
  | function (name returnType : String) (params : List Node) (body : Node)
  | parameter (type name : String)
  | varDecl (type name : String) (initByAddr : Bool)
  | varDeclAssign (type name : String) (expression : Node) (initByAddr : Bool)
  | assign (name : String) (expression : Node)
  | ret (expression : Option Node)
  | expression (left : Option Node) (op : String) (right : Option Node)
  | identifier (name : String)
  | literal (value : String)
  | stringLiteral (value : String)
  | if_ (condition body : Node) (else_ : Option Node)
  | while_ (condition body : Node)
  | switch_ (condition : Node) (cases : List Node)
  | case_ (value body : Node)
  | default_ (body : Node)
  | cont
  | brk
  | block (statements : List Node)
  | functionCall (name : String) (arguments : List Node)
  | globalVarDecl (type name : String) (initByAddr : Bool)
  | functionPrototype (name returnType : String) (params : List Node)
  | headerNode (items : List Node)
  | typedefNode (newName : String)
  | structNode (memberTypes : List String)
  | asmNode (source : String)

/-! ## Code-generator state (codegenerator.hpp of the part_005 variant) -/

structure CG where
  generated : List String
  localVarOffset : Int
  totalLocalVarOffset : Int
  labelCounter : Nat
  localVarStack : List (List (String × Int × String))
  loopContextStack : List (String × String)
  currentFunctionName : String
  currentArgOffset : Int
  typedefs : Typedefs
  structDefinitions : Structs

/-- `CodeGenerator::CodeGenerator(typedefs, structs)`. -/
def mkCG (typedefs : Typedefs) (structs : Structs) : CG :=
  { generated := [], localVarOffset := 0, totalLocalVarOffset := 0, labelCounter := 0,
    localVarStack := [], loopContextStack := [], currentFunctionName := "",
    currentArgOffset := 0, typedefs := typedefs, structDefinitions := structs }

/-- `CodeGenerator::emit`. -/
def emit (s : CG) (l : String) : CG := { s with generated := s.generated ++ [l] }

/-- A sequence of consecutive `emit` calls. -/
def emitMany (s : CG) (ls : List String) : CG := { s with generated := s.generated ++ ls }

/-- System V argument registers, as initialised in the constructor. -/
def argumentRegisters : List String := ["rdi", "rsi", "rdx", "rcx", "r8", "r9"]

/-- Decimal rendering of a natural counter (`std::to_string` on a
non-negative int). -/
def natToStr (n : Nat) : String := String.mk (natDigits n)

/-- `CodeGenerator::generateUniqueLabel`: `"L" + to_string(labelCounter++)`. -/
def generateUniqueLabel (s : CG) : String × CG :=
  ("L" ++ natToStr s.labelCounter, { s with labelCounter := s.labelCounter + 1 })

/-- The label-generation loop at the top of `visitSwitchNode`. -/
def generateLabels : Nat → CG → List String × CG
  | 0, s => ([], s)
  | k + 1, s =>
    let (l, s1) := generateUniqueLabel s
    let (ls, s2) := generateLabels k s1
    (l :: ls, s2)

/-- `std::map::operator[]` assignment on a frame. -/
def frameInsert (frame : List (String × Int × String)) (name : String) (off : Int)
    (ty : String) : List (String × Int × String) :=
  match frame with
  | [] => [(name, off, ty)]
  | (k, v) :: rest =>
    if k = name then (name, off, ty) :: rest else (k, v) :: frameInsert rest name off ty

/-- Search the frame stack newest-first (`rbegin`..`rend` of the vector). -/
def findInFrames : List (List (String × Int × String)) → String → Option (Int × String)
  | [], _ => none
  | f :: rest, name =>
    match f.lookup name with
    | some v => some v
    | none => findInFrames rest name

/-- `CodeGenerator::getLocalVariableOffset`; `printError` exits and is
modelled as `.error`. -/
def getLocalVariableOffset (s : CG) (name : String) : Except String Int :=
  match findInFrames s.localVarStack name with
  | some (off, _) => .ok off
  | none => .error "Variable not defined"

/-- `CodeGenerator::addLocalVariable` (codegenerator.cpp:94-99).  Note that
it adds the raw size to `totalLocalVarOffset` on top of the rounded block
allocation already added by `visitBlockNode`.  `back()` on an empty stack
is C++ UB; modelled runs always have a frame, the `.error` is unreachable. -/
def addLocalVariable (s : CG) (name type : String) : Except String CG :=
  match resolveTypeSize s.typedefs s.structDefinitions type with
  | .error e => .error e
  | .ok size =>
    match s.localVarStack with
    | [] => .error "internal: localVarStack empty"
    | frame :: rest =>
      .ok { s with
        localVarOffset := s.localVarOffset - size,
        totalLocalVarOffset := s.totalLocalVarOffset + size,
        localVarStack := frameInsert frame name (s.localVarOffset - size) type :: rest }

/-- `CodeGenerator::calculateLocalVariableSize` (codegenerator.cpp:492-514):
sum of the resolved sizes of the `VarDecl`/`VarDeclAssign` statements
directly in the block. -/
def calculateLocalVariableSize (s : CG) (stmts : List Node) : Except String Int :=
  stmts.foldlM (fun acc stmt =>
    match stmt with
    | Node.varDecl ty _ _ => (resolveTypeSize s.typedefs s.structDefinitions ty).map (acc + ·)
    | Node.varDeclAssign ty _ _ _ =>
      (resolveTypeSize s.typedefs s.structDefinitions ty).map (acc + ·)
    | _ => .ok acc) 0

/-- The rounding in `visitBlockNode`:
`if (size % 16 != 0) size += 16 - size % 16`. -/
def roundUp16 (k : Int) : Int := if k % 16 ≠ 0 then k + (16 - k % 16) else k

/-- The operator dispatch chain at the end of
`CodeGenerator::visitExpressionNode` (codegenerator.cpp:190-239): the lines
emitted for one operator.  `hasLeft`/`hasRight` reflect the null-ness of
the child pointers (the `-` case emits `neg rax` only for `!left && right`).
Unrecognised operators emit nothing. -/
def opLines (op : String) (hasLeft hasRight : Bool) : List String :=
  if op = "+" then ["add rax, rbx"]
  else if op = "-" then
    (if ¬hasLeft ∧ hasRight then ["neg rax"] else ["sub rax, rbx"])
  else if op = "*" then ["imul rax, rbx"]
  else if op = "/" then ["xor rdx, rdx", "idiv rbx"]
  else if op = "==" then ["cmp rax, rbx", "sete al", "movzx rax, al"]
  else if op = "!=" then ["cmp rax, rbx", "setne al", "movzx rax, al"]
  else if op = "<" then ["cmp rax, rbx", "setl al", "movzx rax, al"]
  else if op = "<=" then ["cmp rax, rbx", "setle al", "movzx rax, al"]
  else if op = ">" then ["cmp rax, rbx", "setg al", "movzx rax, al"]
  else if op = ">=" then ["cmp rax, rbx", "setge al", "movzx rax, al"]
  else if op = "&" then ["and rax, rbx"]
  else if op = "|" then ["or rax, rbx"]
  else if op = "&&" then ["and rax, rbx"]
  else if op = "||" then ["or rax, rbx"]
  else if op = "!" then ["cmp rax, 0", "sete al", "movzx rax, al"]
  else []

/-- `CodeGenerator::visitVarDeclNode`. -/
def visitVarDeclNode (stmt : Node) (s : CG) : Except String CG :=
  match stmt with
  | Node.varDecl ty nm _ => addLocalVariable s nm ty
  | _ => .error "not a VarDeclNode"

/-! ## The tree-walking visitors (codegenerator.cpp)

All visitors carry a fuel argument that strictly decreases at every call;
`fuelMsg` signals an exhausted budget, never a source-level failure.  A
visitor receiving a node of the wrong variant behaves as the corresponding
C++ `dynamic_cast`: `visitExpressionNode` silently returns (null check at
its top), `visitBlockNode` hits `printFatal("BlockNode cannot be null")`. -/

mutual

/-- `CodeGenerator::visitExpressionNode` (codegenerator.cpp:167-240),
including the `dynamic_cast<const ExpressionNode*>` at every call site:
the argument is the raw child pointer (`none` = null), and any non
`Expression` node makes the cast yield null, so the visitor returns with
no effect.  A `Literal` child is special-cased through `visitLiteralNode`;
all other children go through the recursive cast. -/
def visitExpressionNode : Nat → Option Node → CG → Except String CG
  | 0, _, _ => .error fuelMsg
  | n + 1, child, s =>
    match child with
    | none => .ok s
    | some (Node.expression left op right) =>
      match (match left with
             | none => (.ok s : Except String CG)
             | some l =>
               match visitOperand n (some l) s with
               | .error e => .error e
               | .ok s1 => .ok (emit s1 "push rax")) with
      | .error e => .error e
      | .ok s1 =>
        match (match right with
               | none => (.ok s1 : Except String CG)
               | some r => visitOperand n (some r) s1) with
        | .error e => .error e
        | .ok s2 =>
          let s3 := if left.isSome then emit s2 "pop rbx" else s2
          .ok (emitMany s3 (opLines op left.isSome right.isSome))
    | some _ => .ok s
termination_by structural n c s => n

/-- One operand of `visitExpressionNode`: a `Literal` child goes through
`visitLiteralNode` (codegenerator.cpp:371-373, `mov rax, <value>`); any
other child goes through the `dynamic_cast<const ExpressionNode*>` and
the recursive visit (a no-op unless the child is an `Expression`). -/
def visitOperand : Nat → Option Node → CG → Except String CG
  | 0, _, _ => .error fuelMsg
  | n + 1, child, s =>
    match child with
    | some (Node.literal v) => .ok (emit s ("mov rax, " ++ v))
    | c => visitExpressionNode n c s
termination_by structural n c s => n

/-- `CodeGenerator::visitVarDeclAssignNode` (codegenerator.cpp:128-133). -/
def visitVarDeclAssignNode : Nat → Node → CG → Except String CG
  | 0, _, _ => .error fuelMsg
  | n + 1, Node.varDeclAssign ty nm expr _, s =>
    match addLocalVariable s nm ty with
    | .error e => .error e
    | .ok s1 =>
      match visitExpressionNode n (some expr) s1 with
      | .error e => .error e
      | .ok s2 =>
        match getLocalVariableOffset s2 nm with
        | .error e => .error e
        | .ok off => .ok (emit s2 ("mov [rbp" ++ intToStr off ++ "], rax"))
  | _ + 1, _, _ => .error "not a VarDeclAssignNode"
termination_by structural n nd s => n

/-- `CodeGenerator::visitAssignNode` (codegenerator.cpp:157-165). -/
def visitAssignNode : Nat → Node → CG → Except String CG
  | 0, _, _ => .error fuelMsg
  | n + 1, Node.assign nm expr, s =>
    match visitExpressionNode n (some expr) s with
    | .error e => .error e
    | .ok s1 =>
      match getLocalVariableOffset s1 nm with
      | .error e => .error e
      | .ok off =>
        if off < 0 then .ok (emit s1 ("mov [rbp" ++ intToStr off ++ "], rax"))
        else .ok (emit s1 ("mov [rbp+" ++ intToStr off ++ "], rax"))
  | _ + 1, _, _ => .error "not an AssignNode"
termination_by structural n nd s => n

/-- `CodeGenerator::visitReturnNode` (codegenerator.cpp:242-253).  The
expression, when present, goes through the failed-cast-tolerant
`visitExpressionNode`; `add rsp` is emitted only when the running
`totalLocalVarOffset` is positive, and the counter is then zeroed. -/
def visitReturnNode : Nat → Node → CG → Except String CG
  | 0, _, _ => .error fuelMsg
  | n + 1, Node.ret expr, s =>
    match (match expr with
           | some e => visitExpressionNode n (some e) s
           | none => .ok s) with
    | .error e => .error e
    | .ok s1 =>
      let s2 :=
        if s1.totalLocalVarOffset > 0 then
          let s1e := emit s1 ("add rsp, " ++ intToStr s1.totalLocalVarOffset)
          { s1e with totalLocalVarOffset := 0 }
        else s1
      .ok (emit s2 ("jmp .L_return_" ++ s2.currentFunctionName))
  | _ + 1, _, _ => .error "not a ReturnNode"
termination_by structural n nd s => n

/-- `CodeGenerator::visitIfNode` (codegenerator.cpp:255-277). -/
def visitIfNode : Nat → Node → CG → Except String CG
  | 0, _, _ => .error fuelMsg
  | n + 1, Node.if_ cond body els, s =>
    let (elseLabel, sa) := generateUniqueLabel s
    let (endLabel, sb) := generateUniqueLabel sa
    match visitExpressionNode n (some cond) sb with
    | .error e => .error e
    | .ok s1 =>
      let s2 := emit (emit s1 "cmp rax, 0") ("je " ++ elseLabel)
      match visitBlockNode n body s2 with
      | .error e => .error e
      | .ok s3 =>
        let s4 := emit (emit s3 ("jmp " ++ endLabel)) (elseLabel ++ ":")
        match (match els with
               | some (Node.block bs) => visitBlockNode n (Node.block bs) s4
               | some (Node.if_ c b e2) => visitIfNode n (Node.if_ c b e2) s4
               | _ => .ok s4) with
        | .error e => .error e
        | .ok s5 => .ok (emit s5 (endLabel ++ ":"))
  | _ + 1, _, _ => .error "not an IfNode"
termination_by structural n nd s => n

/-- `CodeGenerator::visitWhileNode` (codegenerator.cpp:279-296). -/
def visitWhileNode : Nat → Node → CG → Except String CG
  | 0, _, _ => .error fuelMsg
  | n + 1, Node.while_ cond body, s =>
    let (startLabel, sa) := generateUniqueLabel s
    let (endLabel, sb) := generateUniqueLabel sa
    let s1 := { sb with loopContextStack := (startLabel, endLabel) :: sb.loopContextStack }
    let s2 := emit s1 (startLabel ++ ":")
    match visitExpressionNode n (some cond) s2 with
    | .error e => .error e
    | .ok s3 =>
      let s4 := emit (emit s3 "cmp rax, 0") ("je " ++ endLabel)
      match visitBlockNode n body s4 with
      | .error e => .error e
      | .ok s5 =>
        let s6 := emit (emit s5 ("jmp " ++ startLabel)) (endLabel ++ ":")
        .ok { s6 with loopContextStack := s6.loopContextStack.tail }
  | _ + 1, _, _ => .error "not a WhileNode"
termination_by structural n nd s => n

/-- `CodeGenerator::visitBlockNode` (codegenerator.cpp:298-356).  A null
(or failed) `BlockNode` cast is fatal; the local-variable allocation is
rounded up to a multiple of 16 and subtracted from `rsp` on entry, and the
same amount added back after the statements; note the early `return` for
an empty statement list, which skips `exitScope`. -/
def visitBlockNode : Nat → Node → CG → Except String CG
  | 0, _, _ => .error fuelMsg
  | n + 1, Node.block stmts, s =>
    match calculateLocalVariableSize s stmts with
    | .error e => .error e
    | .ok size =>
      let localVarSize := roundUp16 size
      let s1 := { s with localVarStack := [] :: s.localVarStack }
      let s2 :=
        if localVarSize > 0 then
          let s1e := emit s1 ("sub rsp, " ++ intToStr localVarSize)
          { s1e with totalLocalVarOffset := s1e.totalLocalVarOffset + localVarSize }
        else s1
      if stmts.isEmpty then .ok s2
      else
        match visitBlockStatements n stmts s2 with
        | .error e => .error e
        | .ok s3 =>
          let s4 :=
            if localVarSize > 0 then
              let s3e := emit s3 ("add rsp, " ++ intToStr localVarSize)
              { s3e with totalLocalVarOffset := s3e.totalLocalVarOffset - localVarSize }
            else s3
          .ok { s4 with localVarStack := s4.localVarStack.tail }
  | _ + 1, _, _ => .error "BlockNode cannot be null"
termination_by structural n nd s => n

/-- The statement loop of `visitBlockNode` with its `switch` dispatch;
statement kinds without a case (e.g. `Break`, `Continue`) hit the fatal
default branch. -/
def visitBlockStatements : Nat → List Node → CG → Except String CG
  | 0, _, _ => .error fuelMsg
  | _ + 1, [], s => .ok s
  | n + 1, stmt :: rest, s =>
    let step : Except String CG :=
      match stmt with
      | Node.varDecl ty nm i => visitVarDeclNode (Node.varDecl ty nm i) s
      | Node.varDeclAssign ty nm e i => visitVarDeclAssignNode n (Node.varDeclAssign ty nm e i) s
      | Node.assign nm e => visitAssignNode n (Node.assign nm e) s
      | Node.ret e => visitReturnNode n (Node.ret e) s
      | Node.if_ c b e => visitIfNode n (Node.if_ c b e) s
      | Node.while_ c b => visitWhileNode n (Node.while_ c b) s
      | Node.functionCall nm args => visitFunctionCallNode n (Node.functionCall nm args) s
      | Node.switch_ c cs => visitSwitchNode n (Node.switch_ c cs) s
      | _ => .error "Unhandled node type in BlockNode"
    match step with
    | .error e => .error e
    | .ok s1 => visitBlockStatements n rest s1
termination_by structural n l s => n

/-- `CodeGenerator::visitFunctionCallNode` (codegenerator.cpp:358-369):
arguments evaluated right to left, first six into registers, the rest
pushed; the stack fix-up is `8 * max(0, argc - 6)`. -/
def visitFunctionCallNode : Nat → Node → CG → Except String CG
  | 0, _, _ => .error fuelMsg
  | n + 1, Node.functionCall name args, s =>
    match callArgsLoop n args.enum.reverse s with
    | .error e => .error e
    | .ok s1 =>
      let s2 := emit s1 ("call " ++ name)
      .ok (emit s2 ("add rsp, " ++ intToStr (8 * max 0 ((args.length : Int) - 6))))
  | _ + 1, _, _ => .error "not a FunctionCallNode"
termination_by structural n nd s => n

/-- The argument loop of `visitFunctionCallNode`, iterating over
`(index, argument)` pairs from the last argument down to the first. -/
def callArgsLoop : Nat → List (Nat × Node) → CG → Except String CG
  | 0, _, _ => .error fuelMsg
  | _ + 1, [], s => .ok s
  | n + 1, (i, a) :: rest, s =>
    match visitExpressionNode n (some a) s with
    | .error e => .error e
    | .ok s1 =>
      let s2 :=
        if i < 6 then emit s1 ("mov " ++ argumentRegisters.getD i "" ++ ", rax")
        else emit s1 "push rax"
      callArgsLoop n rest s2
termination_by structural n l s => n

/-- `CodeGenerator::visitSwitchNode` (codegenerator.cpp:412-454): labels
for end, default and every arm slot; the switch value through
`visitExpressionNode` into `rax` then `rbx`; the compare phase; an
unconditional `jmp` to the end label; the label phase; the default label
and body; the end label. -/
def visitSwitchNode : Nat → Node → CG → Except String CG
  | 0, _, _ => .error fuelMsg
  | n + 1, Node.switch_ cond cases, s =>
    let (endLabel, sa) := generateUniqueLabel s
    let (defaultLabel, sb) := generateUniqueLabel sa
    let (caseLabels, sc) := generateLabels cases.length sb
    match visitExpressionNode n (some cond) sc with
    | .error e => .error e
    | .ok s1 =>
      let s2 := emit s1 "mov rbx, rax"
      match switchComparePhase n cases caseLabels defaultLabel s2 with
      | .error e => .error e
      | .ok s3 =>
        let s4 := emit s3 ("jmp " ++ endLabel)
        match switchLabelPhase n cases caseLabels s4 with
        | .error e => .error e
        | .ok s5 =>
          let s6 := emit s5 (defaultLabel ++ ":")
          match switchDefaultPhase n cases s6 with
          | .error e => .error e
          | .ok s7 => .ok (emit s7 (endLabel ++ ":"))
  | _ + 1, _, _ => .error "not a SwitchNode"
termination_by structural n nd s => n

/-- First loop of `visitSwitchNode` (codegenerator.cpp:424-433): for a
`CaseNode` the code visits the case **body** as a block, then emits the
compare and conditional jump; for a `DefaultNode` it emits the jump to the
default label; the case's value expression is never evaluated here. -/
def switchComparePhase : Nat → List Node → List String → String → CG → Except String CG
  | 0, _, _, _, _ => .error fuelMsg
  | _ + 1, [], _, _, s => .ok s
  | n + 1, c :: cs, labels, defaultLabel, s =>
    let lbl := labels.getD 0 ""
    let restLabels := labels.tail
    match c with
    | Node.case_ v body =>
      match visitBlockNode n body s with
      | .error e => .error e
      | .ok s1 =>
        switchComparePhase n cs restLabels defaultLabel
          (emit (emit s1 "cmp rbx, rax") ("je " ++ lbl))
    | Node.default_ _ =>
      switchComparePhase n cs restLabels defaultLabel (emit s ("jmp " ++ defaultLabel))
    | _ => switchComparePhase n cs restLabels defaultLabel s
termination_by structural n cs ls d s => n

/-- Second loop of `visitSwitchNode` (codegenerator.cpp:437-443): a label
for **every** arm slot, followed by the case body again when the slot is a
`CaseNode`. -/
def switchLabelPhase : Nat → List Node → List String → CG → Except String CG
  | 0, _, _, _ => .error fuelMsg
  | _ + 1, [], _, s => .ok s
  | n + 1, c :: cs, labels, s =>
    let lbl := labels.getD 0 ""
    let restLabels := labels.tail
    let s1 := emit s (lbl ++ ":")
    match c with
    | Node.case_ v body =>
      match visitBlockNode n body s1 with
      | .error e => .error e
      | .ok s2 => switchLabelPhase n cs restLabels s2
    | _ => switchLabelPhase n cs restLabels s1
termination_by structural n cs ls s => n

/-- Third loop of `visitSwitchNode` (codegenerator.cpp:446-451): the body
of the first `DefaultNode`, if any. -/
def switchDefaultPhase : Nat → List Node → CG → Except String CG
  | 0, _, _ => .error fuelMsg
  | _ + 1, [], s => .ok s
  | n + 1, c :: cs, s =>
    match c with
    | Node.default_ body => visitBlockNode n body s
    | _ => switchDefaultPhase n cs s
termination_by structural n cs s => n

end

/-- `CodeGenerator::visitBreakNode` (codegenerator.cpp:456-462).  Note
that `visitBlockNode`'s dispatch has no `Break` case, so this function is
never reached from a block; it is included for reference. -/
def visitBreakNode (s : CG) : Except String CG :=
  match s.loopContextStack with
  | (_, endLabel) :: _ => .ok (emit s ("jmp " ++ endLabel))
  | [] => .error "Break statement not within a loop"

/-- `CodeGenerator::visitContinueNode` (codegenerator.cpp:464-470). -/
def visitContinueNode (s : CG) : Except String CG :=
  match s.loopContextStack with
  | (startLabel, _) :: _ => .ok (emit s ("jmp " ++ startLabel))
  | [] => .error "Continue statement not within a loop"

/-- The parameter loop of `CodeGenerator::enterFunction`
(codegenerator.cpp:54-66): the first six parameters are stored to
`[rbp-8*(i+1)]` from the argument registers; later ones are recorded at
the growing positive `currentArgOffset`.  A non-`Parameter` node would be
a null `dynamic_cast` dereference in the C++ (UB), modelled as an error. -/
def paramsSetup : List Node → Nat → CG → Except String CG
  | [], _, s => .ok s
  | p :: rest, i, s =>
    match p with
    | Node.parameter ptype pname =>
      if i < 6 then
        let s1 := emit s ("mov [rbp-" ++ intToStr (8 * ((i : Int) + 1)) ++ "], "
          ++ argumentRegisters.getD i "")
        match s1.localVarStack with
        | [] => .error "internal: localVarStack empty"
        | frame :: fr =>
          paramsSetup rest (i + 1)
            { s1 with localVarStack := frameInsert frame pname (-(8 * ((i : Int) + 1))) ptype :: fr }
      else
        match s.localVarStack with
        | [] => .error "internal: localVarStack empty"
        | frame :: fr =>
          paramsSetup rest (i + 1)
            { s with
              localVarStack := frameInsert frame pname s.currentArgOffset ptype :: fr
              currentArgOffset := s.currentArgOffset + 8 }
    | _ => .error "invalid parameter node"

/-- `CodeGenerator::visitFunctionNode` = `enterFunction` (prologue and
parameters), the body through `visitBlockNode` (a non-block body is the
null-cast fatal), and `exitFunction` (epilogue). -/
def visitFunctionNode (fuel : Nat) (node : Node) (s : CG) : Except String CG :=
  match node with
  | Node.function name _ params body =>
    let s1 := { s with
      currentFunctionName := name
      localVarOffset := 0
      totalLocalVarOffset := 0
      currentArgOffset := 16
      localVarStack := [] :: s.localVarStack }
    let s2 := emitMany s1 ["section .text", ".global " ++ name, name ++ ":",
                           "push rbp", "mov rbp, rsp"]
    match paramsSetup params 0 s2 with
    | .error e => .error e
    | .ok s3 =>
      match visitBlockNode fuel body s3 with
      | .error e => .error e
      | .ok s4 =>
        let s5 := emitMany s4 [".L_return_" ++ name ++ ":", "leave", "ret"]
        .ok { s5 with
          localVarStack := s5.localVarStack.tail
          currentFunctionName := "" }
  | _ => .error "not a FunctionNode"

/-- `CodeGenerator::visitProgramNode` (codegenerator.cpp:112-116). -/
def visitProgramNode (fuel : Nat) (node : Node) (s : CG) : Except String CG :=
  match node with
  | Node.program fns => goFns fns s
  | _ => .error "not a ProgramNode"
where
  goFns : List Node → CG → Except String CG
    | [], s => .ok s
    | f :: rest, s =>
      match visitFunctionNode fuel f s with
      | .error e => .error e
      | .ok s1 => goFns rest s1

/-! ## The parser (src/src/parser.cpp with src/src/parser.hpp)

Tokens carry their kind and lexeme `value`; the lexer
(src/unnamed/part_003) gives keyword and identifier/number tokens their
text and punctuation tokens the empty string.  `Parser::error` prints the
diagnostic (with the offending token's position) and then throws the
generic `runtime_error("Parse error")`; the model carries the printed
diagnostic message in the `Except.error` so theorems can name it.
`expect` throws its message directly.

`parseBlock`'s statement grammar calls `parseExpression`, `parseIf`,
`parseWhile`, `parseSwitch` and `parseFunctionCall`, whose definitions are
not under `src/`; functions that would enter a body therefore take the
body parser as an explicit argument `pb`, and theorems about paths that
fail before any body is parsed quantify over `pb`. -/

inductive TokType where
  | FUNCTION | RETURN | VOID | TYPEDEF | STRUCT
  | IF | ELSE | WHILE | SWITCH | CASE | DEFAULT | BREAK | CONTINUE
  | HEADER | INLINE_ASM
  | INT8 | INT16 | INT32 | INT64 | UINT8 | UINT16 | UINT32 | UINT64 | FLOAT | CHAR | BOOL
  | LEFT_PAREN | RIGHT_PAREN | LEFT_BRACE | RIGHT_BRACE | LEFT_BRACKET | RIGHT_BRACKET
  | SEMICOLON | COMMA | ASSIGN | EQUAL | NOT_EQUAL | LESS | LESS_EQUAL | GREATER | GREATER_EQUAL
  | PLUS | MINUS | STAR | SLASH | PERCENT | AMPERSAND | PIPE | EXCLAMATION
  | IDENTIFIER | NUMBER | STRING | EOF_TOKEN
deriving DecidableEq

structure Tok where
  type : TokType
  value : String

structure PState where
  tokens : List Tok
  current : Nat
  existing_types : List String
  existing_functions : List String
  existing_variables : List String

/-- Fresh parser state over a token vector (`Parser::Parser`), with
`existing_types` seeded as in src/src/parser.hpp. -/
def initP (toks : List Tok) : PState :=
  { tokens := toks, current := 0,
    existing_types := ["void", "char", "float", "bool", "int8", "int16", "int32", "int64",
                       "uint8", "uint16", "uint32", "uint64"],
    existing_functions := [], existing_variables := [] }

/-- `Parser::consume`. -/
def consumeP (st : PState) : Except String (Tok × PState) :=
  match st.tokens.get? st.current with
  | some t => .ok (t, { st with current := st.current + 1 })
  | none => .error "Unexpected end of input"

/-- `Parser::peek(offset)`. -/
def peekP (off : Nat) (st : PState) : Except String Tok :=
  match st.tokens.get? (st.current + off) with
  | some t => .ok t
  | none => .error "Unexpected end of input"

/-- `Parser::previous`. -/
def prevP (st : PState) : Except String Tok :=
  if st.current = 0 then .error "No previous token available"
  else
    match st.tokens.get? (st.current - 1) with
    | some t => .ok t
    | none => .error "No previous token available"

/-- `Parser::check`. -/
def checkP (ty : TokType) (st : PState) : Bool :=
  match st.tokens.get? st.current with
  | some t => t.type = ty
  | none => false

/-- `Parser::expect`: throws `message` when the check fails. -/
def expectP (ty : TokType) (msg : String) (st : PState) : Except String PState :=
  if checkP ty st then
    match consumeP st with
    | .ok (_, st') => .ok st'
    | .error e => .error e
  else .error msg

/-- `Parser::match` on a single kind. -/
def matchP (ty : TokType) (st : PState) : Bool × PState :=
  if checkP ty st then (true, { st with current := st.current + 1 })
  else (false, st)

/-- `Parser::isType`. -/
def isTypeP (name : String) (st : PState) : Bool := name ∈ st.existing_types

/-- `Parser::error(token, message)`: evaluates the token argument (which
may itself throw "Unexpected end of input"), prints the diagnostic, and
aborts; the model carries the diagnostic message. -/
def errorAt (off : Nat) (msg : String) (st : PState) : Except String (Node × PState) :=
  match peekP off st with
  | .error e => .error e
  | .ok _ => .error msg

/-- `Parser::error(previous(), message)`. -/
def errorAtPrev (msg : String) (st : PState) : Except String (Node × PState) :=
  match prevP st with
  | .error e => .error e
  | .ok _ => .error msg

/-- The body-parser abstraction: `Parser::parseBlock` depends on the
expression/statement parsers absent from `src/`. -/
abbrev BlockParser := PState → Except String (Node × PState)

/-- `Parser::parseGlobalVarDecl` (parser.cpp:201-217). -/
def parseGlobalVarDecl (st : PState) : Except String (Node × PState) :=
  match consumeP st with
  | .error e => .error e
  | .ok (t1, st1) =>
    if ¬isTypeP t1.value st1 then errorAtPrev "Expect global variable type." st1
    else
      match consumeP st1 with
      | .error e => .error e
      | .ok (t2, st2) =>
        if t2.value ∈ st2.existing_variables then
          errorAtPrev "Duplicated global variable name." st2
        else
          let st3 := { st2 with existing_variables := st2.existing_variables ++ [t2.value] }
          match expectP .SEMICOLON "Expect ';' after global variable declaration." st3 with
          | .error e => .error e
          | .ok st4 => .ok (Node.globalVarDecl t1.value t2.value false, st4)

/-- The member loop of `Parser::parseStruct` (parser.cpp:180-196). -/
def parseStructMembers (fuel : Nat) (st : PState) (used : List String)
    (acc : List String) : Except String (List String × PState) :=
  match fuel with
  | 0 => .error fuelMsg
  | fuel + 1 =>
    if ¬checkP .RIGHT_BRACE st ∧ ¬checkP .EOF_TOKEN st then
      match consumeP st with
      | .error e => .error e
      | .ok (t1, st1) =>
        if ¬isTypeP t1.value st1 then
          match prevP st1 with
          | .error e => .error e
          | .ok _ => .error "Expect struct member type."
        else
          match consumeP st1 with
          | .error e => .error e
          | .ok (t2, st2) =>
            if t2.value ∈ used then
              match prevP st2 with
              | .error e => .error e
              | .ok _ => .error "Duplicated struct member name."
            else parseStructMembers fuel st2 (used ++ [t2.value]) (acc ++ [t1.value])
    else .ok (acc, st)

/-- `Parser::parseStruct` (parser.cpp:175-199). -/
def parseStruct (fuel : Nat) (st : PState) : Except String (Node × PState) :=
  match expectP .STRUCT "Expect 'struct' keyword." st with
  | .error e => .error e
  | .ok st1 =>
    match expectP .LEFT_BRACE "Expect '\x7b' after 'struct' keyword." st1 with
    | .error e => .error e
    | .ok st2 =>
      match parseStructMembers fuel st2 [] [] with
      | .error e => .error e
      | .ok (members, st3) =>
        match expectP .RIGHT_BRACE "Expect '\x7d' after struct members." st3 with
        | .error e => .error e
        | .ok st4 => .ok (Node.structNode members, st4)

/-- `Parser::parseTypedef` (parser.cpp:152-173).  Note that it does not
register the new name in `existing_types`. -/
def parseTypedef (fuel : Nat) (st : PState) : Except String (Node × PState) :=
  match expectP .TYPEDEF "Expect 'typedef' keyword." st with
  | .error e => .error e
  | .ok st1 =>
    let oldPart : Except String PState :=
      if checkP .STRUCT st1 then (parseStruct fuel st1).map (·.2)
      else
        match consumeP st1 with
        | .error e => .error e
        | .ok (t, st2) =>
          if ¬isTypeP t.value st2 then
            match peekP 0 st2 with
            | .error e => .error e
            | .ok _ => .error "Expect typedef type."
          else .ok st2
    match oldPart with
    | .error e => .error e
    | .ok st2 =>
      match consumeP st2 with
      | .error e => .error e
      | .ok (tn, st3) =>
        if isTypeP tn.value st3 then
          match prevP st3 with
          | .error e => .error e
          | .ok _ => .error "Can not redefine type"
        else
          match expectP .SEMICOLON "Expect ';' after typedef." st3 with
          | .error e => .error e
          | .ok st4 => .ok (Node.typedefNode tn.value, st4)

/-- The parameter-list grammar shared by `parseFunctionPrototype`
(parser.cpp:121-137) and `parseFunction` (parser.cpp:256-272): first
parameter, then a comma loop. -/
def parseParamsTail (fuel : Nat) (st : PState) (acc : List Node) :
    Except String (List Node × PState) :=
  match fuel with
  | 0 => .error fuelMsg
  | fuel + 1 =>
    match matchP .COMMA st with
    | (false, st1) => .ok (acc, st1)
    | (true, st1) =>
      match consumeP st1 with
      | .error e => .error e
      | .ok (t, st2) =>
        if ¬isTypeP t.value st2 then
          match peekP 0 st2 with
          | .error e => .error e
          | .ok _ => .error "Expect function parameter type."
        else
          match consumeP st2 with
          | .error e => .error e
          | .ok (t2, st3) => parseParamsTail fuel st3 (acc ++ [Node.parameter t.value t2.value])

def parseParams (fuel : Nat) (st : PState) : Except String (List Node × PState) :=
  if ¬checkP .RIGHT_PAREN st then
    match consumeP st with
    | .error e => .error e
    | .ok (t, st1) =>
      if ¬isTypeP t.value st1 then
        match peekP 0 st1 with
        | .error e => .error e
        | .ok _ => .error "Expect function parameter type."
      else
        match consumeP st1 with
        | .error e => .error e
        | .ok (t2, st2) => parseParamsTail fuel st2 [Node.parameter t.value t2.value]
  else .ok ([], st)

/-- `Parser::parseFunctionPrototype` (parser.cpp:111-150): registers the
name in `existing_functions` unconditionally (there is no separate
`prototypes` registration — the `prototypes` member declared in
src/src/parser.hpp is never written). -/
def parseFunctionPrototype (fuel : Nat) (st : PState) : Except String (Node × PState) :=
  match expectP .FUNCTION "Expect 'function' keyword." st with
  | .error e => .error e
  | .ok st1 =>
    match consumeP st1 with
    | .error e => .error e
    | .ok (tn, st2) =>
      let st3 := { st2 with existing_functions := st2.existing_functions ++ [tn.value] }
      match expectP .LEFT_PAREN "Expect '(' after function name." st3 with
      | .error e => .error e
      | .ok st4 =>
        match parseParams fuel st4 with
        | .error e => .error e
        | .ok (params, st5) =>
          match expectP .RIGHT_PAREN "Expect ')' after function parameters." st5 with
          | .error e => .error e
          | .ok st6 =>
            match expectP .MINUS "Expect '->' after function parameters." st6 with
            | .error e => .error e
            | .ok st7 =>
              match expectP .GREATER "Expect '>' after function return type." st7 with
              | .error e => .error e
              | .ok st8 =>
                match consumeP st8 with
                | .error e => .error e
                | .ok (tr, st9) =>
                  if ¬isTypeP tr.value st9 then
                    match peekP 0 st9 with
                    | .error e => .error e
                    | .ok _ => .error "Expect function return type."
                  else
                    match expectP .SEMICOLON "Expect ';' after function prototype." st9 with
                    | .error e => .error e
                    | .ok st10 =>
                      .ok (Node.functionPrototype tn.value tr.value params, st10)

/-- `Parser::parseFunction` (parser.cpp:242-288): any name already in
`existing_functions` — including one registered by a header prototype —
is rejected as a duplicate. -/
def parseFunction (fuel : Nat) (pb : BlockParser) (st : PState) :
    Except String (Node × PState) :=
  match expectP .FUNCTION "Expect 'function' keyword." st with
  | .error e => .error e
  | .ok st1 =>
    match consumeP st1 with
    | .error e => .error e
    | .ok (tn, st2) =>
      if tn.value ∈ st2.existing_functions then
        errorAtPrev "Duplicated function name." st2
      else
        let st3 := { st2 with existing_functions := st2.existing_functions ++ [tn.value] }
        match expectP .LEFT_PAREN "Expect '(' after function name." st3 with
        | .error e => .error e
        | .ok st4 =>
          match parseParams fuel st4 with
          | .error e => .error e
          | .ok (params, st5) =>
            match expectP .RIGHT_PAREN "Expect ')' after function parameters." st5 with
            | .error e => .error e
            | .ok st6 =>
              match expectP .MINUS "Expect '->' after function declaration." st6 with
              | .error e => .error e
              | .ok st7 =>
                match expectP .GREATER "Expect '->' after function declaration." st7 with
                | .error e => .error e
                | .ok st8 =>
                  match consumeP st8 with
                  | .error e => .error e
                  | .ok (tr, st9) =>
                    if ¬isTypeP tr.value st9 then
                      match peekP 0 st9 with
                      | .error e => .error e
                      | .ok _ => .error "Expect function return type."
                    else
                      match expectP .LEFT_BRACE "Expect '\x7b' after function declaration." st9 with
                      | .error e => .error e
                      | .ok st10 =>
                        match pb st10 with
                        | .error e => .error e
                        | .ok (body, st11) =>
                          match expectP .RIGHT_BRACE "Expect '\x7d' after function body." st11 with
                          | .error e => .error e
                          | .ok st12 =>
                            match expectP .SEMICOLON "Expect ';' after function declaration." st12 with
                            | .error e => .error e
                            | .ok st13 =>
                              .ok (Node.function tn.value tr.value params body, st13)

/-- The item loop of `Parser::parseHeader` (parser.cpp:90-109).  Note that
`parseHeader` never consumes a `LEFT_BRACE`: `parse` consumed only the
`header` keyword, so the `{` of `header { ... };` is the current token on
entry and falls through to the final "Expect statement." error. -/
def parseHeaderItems (fuel : Nat) (st : PState) (acc : List Node) :
    Except String (List Node × PState) :=
  match fuel with
  | 0 => .error fuelMsg
  | fuel + 1 =>
    if ¬checkP .EOF_TOKEN st ∧ ¬checkP .RIGHT_BRACE st then
      if checkP .FUNCTION st then
        match parseFunctionPrototype fuel st with
        | .error e => .error e
        | .ok (nd, st1) => parseHeaderItems fuel st1 (acc ++ [nd])
      else if checkP .TYPEDEF st then
        match parseTypedef fuel st with
        | .error e => .error e
        | .ok (nd, st1) => parseHeaderItems fuel st1 (acc ++ [nd])
      else
        match peekP 2 st with
        | .error e => .error e
        | .ok t2 =>
          if t2.type = .ASSIGN then
            .error "Header does not allow for global variable initialization."
          else
            match peekP 0 st with
            | .error e => .error e
            | .ok t0 =>
              if isTypeP t0.value st then
                match parseGlobalVarDecl st with
                | .error e => .error e
                | .ok (nd, st1) => parseHeaderItems fuel st1 (acc ++ [nd])
              else .error "Expect statement."
    else .ok (acc, st)

/-- `Parser::parseHeader` (parser.cpp:90-109). -/
def parseHeader (fuel : Nat) (st : PState) : Except String (Node × PState) :=
  match parseHeaderItems fuel st [] with
  | .error e => .error e
  | .ok (items, st1) =>
    match expectP .RIGHT_BRACE "Expect '\x7d' after header." st1 with
    | .error e => .error e
    | .ok st2 =>
      match expectP .SEMICOLON "Expect ';' after header." st2 with
      | .error e => .error e
      | .ok st3 => .ok (Node.headerNode items, st3)

/-- The scanning loop of `Parser::parseAsm` (parser.cpp:295-307).  The
guard `!check(RIGHT_BRACE) || !depth == 0` parses as
`!check(RIGHT_BRACE) || depth != 0` (`!depth` is a bool, compared with 0).
The `LEFT_BRACE` and `RIGHT_BRACE` branches end in `continue` without any
`consume()`, so they do not advance `current`. -/
def parseAsmScan (fuel : Nat) (st : PState) (depth : Int) (acc : String) :
    Except String (PState × String) :=
  match fuel with
  | 0 => .error fuelMsg
  | fuel + 1 =>
    if ¬checkP .RIGHT_BRACE st ∨ depth ≠ 0 then
      if checkP .LEFT_BRACE st then
        parseAsmScan fuel st (depth + 1) (acc.push (Char.ofNat 123))
      else if checkP .RIGHT_BRACE st then
        parseAsmScan fuel st (depth - 1) (acc.push (Char.ofNat 125))
      else
        match consumeP st with
        | .error e => .error e
        | .ok (t, st1) => parseAsmScan fuel st1 depth (acc ++ t.value)
    else .ok (st, acc)

/-- `Parser::parseAsm` (parser.cpp:290-312). -/
def parseAsm (fuel : Nat) (st : PState) : Except String (Node × PState) :=
  match expectP .INLINE_ASM "Expect 'asm' keyword." st with
  | .error e => .error e
  | .ok st1 =>
    match expectP .LEFT_BRACE "Expect '\x7b' after 'asm' keyword." st1 with
    | .error e => .error e
    | .ok st2 =>
      match parseAsmScan fuel st2 0 "" with
      | .error e => .error e
      | .ok (st3, src) =>
        match expectP .RIGHT_BRACE "Expect '\x7d' after inline asm block." st3 with
        | .error e => .error e
        | .ok st4 =>
          match expectP .SEMICOLON "Expect ';' after inline asm block." st4 with
          | .error e => .error e
          | .ok st5 => .ok (Node.asmNode src, st5)

/-- `Parser::parse` (parser.cpp:64-88): the top-level item loop. -/
def parseTokens (fuel : Nat) (pb : BlockParser) (st : PState) :
    Except String (Node × PState) :=
  match parseTopItems fuel pb st [] with
  | .error e => .error e
  | .ok (items, st1) => .ok (Node.program items, st1)
where
  parseTopItems (fuel : Nat) (pb : BlockParser) (st : PState) (acc : List Node) :
      Except String (List Node × PState) :=
    match fuel with
    | 0 => .error fuelMsg
    | fuel + 1 =>
      if ¬checkP .EOF_TOKEN st then
        match matchP .HEADER st with
        | (true, st1) =>
          match parseHeader fuel st1 with
          | .error e => .error e
          | .ok (nd, st2) => parseTopItems fuel pb st2 (acc ++ [nd])
        | (false, st1) =>
          if checkP .FUNCTION st1 then
            match parseFunction fuel pb st1 with
            | .error e => .error e
            | .ok (nd, st2) => parseTopItems fuel pb st2 (acc ++ [nd])
          else if checkP .TYPEDEF st1 then
            match parseTypedef fuel st1 with
            | .error e => .error e
            | .ok (nd, st2) => parseTopItems fuel pb st2 (acc ++ [nd])
          else
            match peekP 0 st1 with
            | .error e => .error e
            | .ok t0 =>
              if isTypeP t0.value st1 then
                match peekP 2 st1 with
                | .error e => .error e
                | .ok t2 =>
                  if t2.type = .SEMICOLON then
                    match parseGlobalVarDecl st1 with
                    | .error e => .error e
                    | .ok (nd, st2) => parseTopItems fuel pb st2 (acc ++ [nd])
                  else if t2.type = .ASSIGN then
                    match parseGlobalVarDecl st1 with
                    | .error e => .error e
                    | .ok (nd, st2) => parseTopItems fuel pb st2 (acc ++ [nd])
                  else .error "Expect ';' or '=' after type declaration."
              else if t0.type = .INLINE_ASM then
                match parseAsm fuel st1 with
                | .error e => .error e
                | .ok (nd, st2) => parseTopItems fuel pb st2 (acc ++ [nd])
              else .error "Expect statement."
      else .ok (acc, st)

/-! ## The preprocessor (src/src/preprocessor.cpp)

The file system is a partial map `fs : String → Option String`;
`Preprocessor::readFile` returns the empty string when the stream cannot
be opened, so it collapses a missing file and an empty file to `""`.
`fs::exists` is `(fs p).isSome`.  `printFatal` (include failure) exits the
process and is modelled as `.error`; the `return std::nullopt` after it is
dead code. -/

/-- First index in `cs` whose character is in `set`
(`std::string::find_first_of`). -/
def findFirstOf (cs : List Char) (set : List Char) : Option Nat :=
  cs.findIdx? (· ∈ set)

/-- Last index in `cs` whose character is in `set`
(`std::string::find_last_of`). -/
def findLastOf (cs : List Char) (set : List Char) : Option Nat :=
  match cs.reverse.findIdx? (· ∈ set) with
  | some k => some (cs.length - 1 - k)
  | none => none

/-- First index `≥ start` whose character satisfies `p`. -/
def findIdxFrom (p : Char → Bool) (cs : List Char) (start : Nat) : Option Nat :=
  match (cs.drop start).findIdx? p with
  | some k => some (start + k)
  | none => none

/-- `Preprocessor::readFile` (preprocessor.cpp:154-163). -/
def readFile (fs : String → Option String) (filename : String) : String :=
  (fs filename).getD ""

/-- `std::getline` over a stream of `content`: the final fragment is
dropped only when empty (i.e. when the content ends in a newline). -/
def cppLines (s : String) : List String :=
  let parts := s.splitOn "\n"
  if s.endsWith "\n" then parts.dropLast else parts

/-- `fs::path(filename).parent_path()` for the paths that occur here:
everything before the last `/`, or the empty string. -/
def parentPath (s : String) : String :=
  match findLastOf s.data ['/'] with
  | some i => String.mk (s.data.take i)
  | none => ""

/-- Regex word characters (`\b` boundaries of `replaceMacros`). -/
def isWordChar (c : Char) : Bool :=
  ('a' ≤ c ∧ c ≤ 'z') ∨ ('A' ≤ c ∧ c ≤ 'Z') ∨ ('0' ≤ c ∧ c ≤ '9') ∨ c = '_'

/-- One whole-word replacement pass (`std::regex_replace` with
`\bkey\b`): non-overlapping matches, left to right, scanning resumes
after the inserted value. -/
def wordReplaceGo (fuel : Nat) (done : List Char) (prev : Option Char)
    (rest : List Char) (key value : List Char) : List Char :=
  match fuel with
  | 0 => done ++ rest
  | fuel + 1 =>
    match rest with
    | [] => done
    | c :: cs =>
      let boundaryBefore : Bool := match prev with | none => true | some pc => !isWordChar pc
      let after := rest.drop key.length
      let boundaryAfter : Bool := match after.head? with | none => true | some ac => !isWordChar ac
      if key ≠ [] ∧ key.isPrefixOf rest ∧ boundaryBefore ∧ boundaryAfter then
        wordReplaceGo fuel (done ++ value) (value.getLast?.orElse (fun _ => prev)) after key value
      else
        wordReplaceGo fuel (done ++ [c]) (some c) cs key value

def wordReplace (s key value : String) : String :=
  String.mk (wordReplaceGo (s.data.length + 1) [] none s.data key.data value.data)

/-- `Preprocessor::replaceMacros` (preprocessor.cpp:165-171); the
`unordered_map` iteration order is unspecified in the C++, the model uses
the insertion order of the association list. -/
def replaceMacros (macros : List (String × String)) (line : String) : String :=
  macros.foldl (fun acc kv => wordReplace acc kv.1 kv.2) line

/-- `Preprocessor::handleDefine` (preprocessor.cpp:106-118). -/
def handleDefine (macros : List (String × String)) (line : String) :
    List (String × String) :=
  let cs := line.data
  match findIdxFrom (fun c => ¬(c = ' ' ∨ c = '\t')) cs 7 with
  | none => macros
  | some st =>
    match findIdxFrom (fun c => c = ' ' ∨ c = '\t') cs st with
    | none => macros
    | some en =>
      let name := String.mk ((cs.drop st).take (en - st))
      let value := String.mk (cs.drop (en + 1))
      (macros.filter (fun kv => kv.1 ≠ name)) ++ [(name, value)]

/-- `Preprocessor::handleUndef` (preprocessor.cpp:120-130). -/
def handleUndef (macros : List (String × String)) (line : String) :
    List (String × String) :=
  let cs := line.data
  match findIdxFrom (fun c => ¬(c = ' ' ∨ c = '\t')) cs 6 with
  | none => macros
  | some st =>
    let name := String.mk (cs.drop st)
    macros.filter (fun kv => kv.1 ≠ name)

/-- The filename extraction at the top of `Preprocessor::handleInclude`
(preprocessor.cpp:55-62): `start = find_first_of("\"<") + 1` (on
`size_t`, `npos + 1` wraps to `0`), `end = find_last_of("\">")`; fails
when `end` is `npos` or `start >= end`; the extracted name carries no
quote or bracket. -/
def includeTarget (line : String) : Option String :=
  let cs := line.data
  let start := match findFirstOf cs ['"', '<'] with
    | some i => i + 1
    | none => 0
  match findLastOf cs ['"', '>'] with
  | none => none
  | some en =>
    if start ≥ en then none
    else some (String.mk ((cs.drop start).take (en - start)))

/-- `Preprocessor::resolveIncludePath` (preprocessor.cpp:137-152).  The
branches test `filename.front() == '"'` and `filename.front() == '<'`,
but the caller already stripped the delimiters, so for any ordinary path
both branches are skipped and the name is returned unchanged.
(`front()` on an empty string is C++ UB; the model returns the name.) -/
def resolveIncludePath (filename currentDir : String) (includePaths : List String)
    (fsExists : String → Bool) : String :=
  match filename.data with
  | [] => filename
  | c :: _ =>
    if c = '"' then
      let localPath := currentDir ++ "/" ++ filename
      if fsExists localPath then localPath else filename
    else if c = '<' then
      match includePaths.find? (fun p => fsExists (p ++ "/" ++ filename)) with
      | some p => p ++ "/" ++ filename
      | none => filename
    else filename

/-- The header-block extraction loop of `Preprocessor::handleInclude`
(preprocessor.cpp:75-89): collect from a line starting with `header`
through the first line starting with `};`. -/
def collectHeader : List String → Bool → List String → List String
  | [], _, acc => acc
  | l :: rest, inHeaderBlock, acc =>
    if l.startsWith "header" then collectHeader rest true (acc ++ [l])
    else if inHeaderBlock ∧ l.startsWith "\x7d;" then acc ++ [l]
    else if inHeaderBlock then collectHeader rest true (acc ++ [l])
    else collectHeader rest false acc

/-- The header-content replay loop of `Preprocessor::handleInclude`
(preprocessor.cpp:91-101): defines and undefs are applied, everything
else is macro-expanded into the output. -/
def replayHeader (macros : List (String × String)) (output : String) :
    List String → List (String × String) × String
  | [] => (macros, output)
  | l :: rest =>
    if l.startsWith "#define" then replayHeader (handleDefine macros l) output rest
    else if l.startsWith "#undef" then replayHeader (handleUndef macros l) output rest
    else replayHeader macros (output ++ replaceMacros macros l ++ "\n") rest

/-- `Preprocessor::handleInclude` (preprocessor.cpp:54-104); `none` is the
`return false` of the C++ (caller turns it into the fatal error). -/
def handleInclude (fs : String → Option String) (includePaths : List String)
    (line currentDir : String) (macros : List (String × String)) (output : String) :
    Option (List (String × String) × String) :=
  match includeTarget line with
  | none => none
  | some filename =>
    let fullPath := resolveIncludePath filename currentDir includePaths
      (fun p => (fs p).isSome)
    let fileContent := readFile fs fullPath
    if fileContent = "" then none
    else
      let headerLines := collectHeader (cppLines fileContent) false []
      some (replayHeader macros output headerLines)

/-- The line loop of `Preprocessor::preprocess` (preprocessor.cpp:27-49).
An include failure is `printFatal("failed to include file")`, which exits
(the `return std::nullopt` after it is unreachable). -/
def processLines (fs : String → Option String) (includePaths : List String)
    (currentDir : String) : List String → List (String × String) → String →
    Except String String
  | [], _, output => .ok output
  | line :: rest, macros, output =>
    if line = "" then processLines fs includePaths currentDir rest macros output
    else if line.startsWith "#include" then
      match handleInclude fs includePaths line currentDir macros output with
      | none => .error "failed to include file"
      | some (macros1, output1) => processLines fs includePaths currentDir rest macros1 output1
    else if line.startsWith "#define" then
      processLines fs includePaths currentDir rest (handleDefine macros line) (output ++ "\n")
    else if line.startsWith "#undef" then
      processLines fs includePaths currentDir rest (handleUndef macros line) (output ++ "\n")
    else if line.startsWith "header" then
      processLines fs includePaths currentDir rest macros (output ++ line ++ "\n")
    else
      processLines fs includePaths currentDir rest macros
        (output ++ replaceMacros macros line ++ "\n")

/-- `Preprocessor::preprocess` (preprocessor.cpp:16-52): `nullopt` exactly
when the file's content reads back empty; otherwise the processed buffer
(or a fatal error). -/
def preprocess (fs : String → Option String) (includePaths : List String)
    (filename : String) : Except String (Option String) :=
  let content := readFile fs filename
  if content = "" then .ok none
  else
    match processLines fs includePaths (parentPath filename) (cppLines content) [] "" with
    | .error e => .error e
    | .ok out => .ok (some out)

/-! ## Concrete inputs for the claims -/

/-- `switch (1) { case (2) { } };` -/
def c1Switch : Node :=
  Node.switch_ (Node.literal "1") [Node.case_ (Node.literal "2") (Node.block [])]

/-- `switch (1) { case (2) { } default { } };` -/
def c1SwitchDefault : Node :=
  Node.switch_ (Node.literal "1")
    [Node.case_ (Node.literal "2") (Node.block []), Node.default_ (Node.block [])]

/-- `switch (1) { case (2) { break; } };` -/
def c1SwitchBreak : Node :=
  Node.switch_ (Node.literal "1") [Node.case_ (Node.literal "2") (Node.block [Node.brk])]

/-- Token vector of `function main(void) -> int32 { return 0; };` as the
lexer (src/unnamed/part_003) produces it: keywords and literals carry
their lexeme, punctuation carries the empty string. -/
def c2Tokens : List Tok :=
  [⟨.FUNCTION, "function"⟩, ⟨.IDENTIFIER, "main"⟩, ⟨.LEFT_PAREN, ""⟩, ⟨.VOID, "void"⟩,
   ⟨.RIGHT_PAREN, ""⟩, ⟨.MINUS, ""⟩, ⟨.GREATER, ""⟩, ⟨.INT32, "int32"⟩, ⟨.LEFT_BRACE, ""⟩,
   ⟨.RETURN, "return"⟩, ⟨.NUMBER, "0"⟩, ⟨.SEMICOLON, ""⟩, ⟨.RIGHT_BRACE, ""⟩,
   ⟨.SEMICOLON, ""⟩, ⟨.EOF_TOKEN, ""⟩]

/-- The tree of `function main(void) -> int32 { return 0; };` had the
parameter list been accepted: a parameterless `main` whose body returns
the literal `0` (the spec's expression grammar makes `0` a `Literal`
node). -/
def c2MainAst : Node :=
  Node.function "main" "int32" [] (Node.block [Node.ret (some (Node.literal "0"))])

/-- The assembly the generator emits for `c2MainAst`. -/
def c2MainGen : List String :=
  ["section .text", ".global main", "main:", "push rbp", "mov rbp, rsp",
   "jmp .L_return_main", ".L_return_main:", "leave", "ret"]

/-- Token vector of the preprocessed scenario-E translation unit:
`header { function ping() -> int32; };` (inserted by `#include "lib.e"`)
followed by `function ping() -> int32 { };`. -/
def c6Tokens : List Tok :=
  [⟨.HEADER, "header"⟩, ⟨.LEFT_BRACE, ""⟩, ⟨.FUNCTION, "function"⟩, ⟨.IDENTIFIER, "ping"⟩,
   ⟨.LEFT_PAREN, ""⟩, ⟨.RIGHT_PAREN, ""⟩, ⟨.MINUS, ""⟩, ⟨.GREATER, ""⟩, ⟨.INT32, "int32"⟩,
   ⟨.SEMICOLON, ""⟩, ⟨.RIGHT_BRACE, ""⟩, ⟨.SEMICOLON, ""⟩,
   ⟨.FUNCTION, "function"⟩, ⟨.IDENTIFIER, "ping"⟩, ⟨.LEFT_PAREN, ""⟩, ⟨.RIGHT_PAREN, ""⟩,
   ⟨.MINUS, ""⟩, ⟨.GREATER, ""⟩, ⟨.INT32, "int32"⟩, ⟨.LEFT_BRACE, ""⟩, ⟨.RIGHT_BRACE, ""⟩,
   ⟨.SEMICOLON, ""⟩, ⟨.EOF_TOKEN, ""⟩]

/-- Token vector of the bare definition `function ping() -> int32 { };`. -/
def c6DefTokens : List Tok :=
  [⟨.FUNCTION, "function"⟩, ⟨.IDENTIFIER, "ping"⟩, ⟨.LEFT_PAREN, ""⟩, ⟨.RIGHT_PAREN, ""⟩,
   ⟨.MINUS, ""⟩, ⟨.GREATER, ""⟩, ⟨.INT32, "int32"⟩, ⟨.LEFT_BRACE, ""⟩, ⟨.RIGHT_BRACE, ""⟩,
   ⟨.SEMICOLON, ""⟩, ⟨.EOF_TOKEN, ""⟩]

/-- `function f(int32 a, int32 b) -> int32 { int32 c = a + b; return c; };`
(spec scenario B). -/
def c7FnScenB : Node :=
  Node.function "f" "int32" [Node.parameter "int32" "a", Node.parameter "int32" "b"]
    (Node.block
      [Node.varDeclAssign "int32" "c"
        (Node.expression (some (Node.identifier "a")) "+" (some (Node.identifier "b"))) false,
       Node.ret (some (Node.identifier "c"))])

/-- The assembly the generator emits for `c7FnScenB`. -/
def c7GenB : List String :=
  ["section .text", ".global f", "f:", "push rbp", "mov rbp, rsp",
   "mov [rbp-8], rdi", "mov [rbp-16], rsi", "sub rsp, 16",
   "push rax", "pop rbx", "add rax, rbx", "mov [rbp-4], rax",
   "add rsp, 20", "jmp .L_return_f", "add rsp, 16", ".L_return_f:", "leave", "ret"]

/-- A generator state at a `return`: the running counter is 20 although the
enclosing block's `sub rsp` allocated only 16 — the state scenario B's
return sees. -/
def c7RetState : CG :=
  { generated := [], localVarOffset := 0, totalLocalVarOffset := 20, labelCounter := 0,
    localVarStack := [], loopContextStack := [], currentFunctionName := "f",
    currentArgOffset := 0, typedefs := [], structDefinitions := [] }

/-- The state `visitReturnNode` produces from `c7RetState`: `add rsp, 20`,
the jump, and a zeroed counter. -/
def c7RetOut : CG :=
  { c7RetState with
    generated := ["add rsp, 20", "jmp .L_return_f"]
    totalLocalVarOffset := 0 }

/-- Token vector of `asm { { } };` — an inline-asm block that contains an
inner brace pair. -/
def c9Tokens : List Tok :=
  [⟨.INLINE_ASM, "asm"⟩, ⟨.LEFT_BRACE, ""⟩, ⟨.LEFT_BRACE, ""⟩, ⟨.RIGHT_BRACE, ""⟩,
   ⟨.RIGHT_BRACE, ""⟩, ⟨.SEMICOLON, ""⟩, ⟨.EOF_TOKEN, ""⟩]

/-- The typedef sequence `typedef int32 A; typedef A B;` — a user-defined
type typedef'd to another user-defined type. -/
def c3Decls : List (String × Option String) := [("A", some "int32"), ("B", some "A")]

/-! ## Claim theorems -/

/-- Claim C1: the spec says the switch lowering evaluates the switch value
into `rbx`, evaluates each case's *value* into `rax` before
`cmp rbx, rax ; je Lcase_i`, emits `jmp Ldefault` *or* `jmp Lend` after
the arms, and makes `Lend` the target of every `break` in the switch body.
Evaluating `visitSwitchNode` shows the code instead: never evaluates a
case value (no `mov rax, 2` anywhere for `case (2)`), visits the case
*body* in the compare phase, emits `jmp L1` *and* `jmp L0` when a default
is present, and aborts with the fatal `Unhandled node type in BlockNode`
when a case body contains `break` (the block dispatch has no `Break` case
and the switch never pushes onto the loop stack). -/
theorem c1_switch_lowering_eval :
    (visitSwitchNode 20 c1Switch (mkCG [] [])).map CG.generated =
      .ok ["mov rbx, rax", "cmp rbx, rax", "je L2", "jmp L0", "L2:", "L1:", "L0:"] ∧
    "mov rax, 2" ∉ ["mov rbx, rax", "cmp rbx, rax", "je L2", "jmp L0", "L2:", "L1:", "L0:"] ∧
    (visitSwitchNode 20 c1SwitchDefault (mkCG [] [])).map CG.generated =
      .ok ["mov rbx, rax", "cmp rbx, rax", "je L2", "jmp L1", "jmp L0",
           "L2:", "L3:", "L1:", "L0:"] ∧
    visitSwitchNode 20 c1SwitchBreak (mkCG [] []) =
      .error "Unhandled node type in BlockNode" :=
  ⟨rfl, by decide, rfl, rfl⟩

/-- Claim C2: the spec expects the program
`function main(void) -> int32 { return 0; };` to produce assembly
containing `push rbp`, `mov rbp, rsp`, `mov rax, 0`, `jmp .L_return_main`,
`.L_return_main:`, `leave`, `ret` in order.  The parser in fact rejects
the program: `(void)` makes it consume `void` as a parameter type and `)`
as the parameter name, failing with "Expect ')' after function
parameters." before any body is read (so no assembly exists), whatever
the body parser would do.  Moreover, even for the intended tree the
generator never emits `mov rax, 0`: the literal return expression is not
an `ExpressionNode`, so the `dynamic_cast` in `visitReturnNode` yields
null and the evaluation is silently skipped. -/
theorem c2_scenario_a_eval :
    (∀ pb : BlockParser, parseTokens 30 pb (initP c2Tokens) =
      .error "Expect ')' after function parameters.") ∧
    (visitFunctionNode 20 c2MainAst (mkCG [] [])).map CG.generated = .ok c2MainGen ∧
    "mov rax, 0" ∉ c2MainGen :=
  ⟨fun _ => rfl, rfl, by decide⟩

/-- Claim C4 (counterexample): the claim says `resolveTypeSize` returns 1
for `bool` and reaches the fatal branch for none of the twelve built-in
type names; in fact `bool` (and `void`) have no case and fall through to
`printFatal("Unknown type size")`. -/
theorem c4_bool_counterexample :
    resolveTypeSize [] [] "bool" = .error "Unknown type size" ∧
    resolveTypeSize [] [] "void" = .error "Unknown type size" :=
  ⟨rfl, rfl⟩

/-- The sized type names handled before the struct lookup in
`resolveTypeSize` (note `double`, which is not an EntS type). -/
def sizedBuiltins : List String :=
  ["int8", "uint8", "char", "int16", "uint16", "int32", "uint32", "float",
   "int64", "uint64", "double"]

theorem foldlM_sum_of_mapM (f : String → Except String Int) :
    ∀ (l : List String) (vals : List Int) (a : Int),
      l.mapM f = .ok vals →
      l.foldlM (fun acc m => (f m).map (acc + ·)) a = .ok (a + vals.sum) := by
  intro l
  induction l with
  | nil =>
    intro vals a h
    simp only [List.mapM_nil, pure, Except.pure] at h
    cases h
    show (pure a : Except String Int) = .ok (a + ([] : List Int).sum)
    simp [pure, Except.pure]
  | cons x xs ih =>
    intro vals a h
    rw [List.mapM_cons] at h
    rcases hx : f x with e | v <;> rw [hx] at h
    · simp [bind, Except.bind] at h
    · rcases hxs : xs.mapM f with e2 | vs <;> rw [hxs] at h
      · simp [bind, Except.bind] at h
      · simp only [bind, Except.bind, pure, Except.pure] at h
        cases h
        rw [List.foldlM_cons, hx]
        show (Except.ok (a + v) >>= fun a' =>
          xs.foldlM (fun acc m => (f m).map (acc + ·)) a') = .ok (a + (v :: vs).sum)
        simp only [bind, Except.bind]
        rw [ih vs (a + v) hxs]
        congr 1
        simp only [List.sum_cons]
        ring

/-- Claim C4 (amended): `resolveTypeSize` returns 1 for
`int8`/`uint8`/`char`, 2 for `int16`/`uint16`, 4 for
`int32`/`uint32`/`float`, 8 for `int64`/`uint64`, and for a struct-backed
type (typedefs resolved first, resolved name outside the sized built-ins)
the packed sum of its members' resolved sizes; but `bool` and `void` are
unhandled and reach the fatal `Unknown type size` branch. -/
theorem c4_type_sizes_amended :
    (resolveTypeSize [] [] "int8" = .ok 1 ∧ resolveTypeSize [] [] "uint8" = .ok 1 ∧
     resolveTypeSize [] [] "char" = .ok 1 ∧
     resolveTypeSize [] [] "int16" = .ok 2 ∧ resolveTypeSize [] [] "uint16" = .ok 2 ∧
     resolveTypeSize [] [] "int32" = .ok 4 ∧ resolveTypeSize [] [] "uint32" = .ok 4 ∧
     resolveTypeSize [] [] "float" = .ok 4 ∧
     resolveTypeSize [] [] "int64" = .ok 8 ∧ resolveTypeSize [] [] "uint64" = .ok 8 ∧
     resolveTypeSize [] [] "bool" = .error "Unknown type size" ∧
     resolveTypeSize [] [] "void" = .error "Unknown type size") ∧
    (∀ (n : Nat) (tds : Typedefs) (sds : Structs) (name : String)
       (members : List String) (vals : List Int),
      sds.lookup (resolveTypeName tds name) = some members →
      resolveTypeName tds name ∉ sizedBuiltins →
      members.mapM (fun m => resolveTypeSizeF n tds sds m) = .ok vals →
      resolveTypeSizeF (n + 1) tds sds name = .ok vals.sum) := by
  constructor
  · exact ⟨rfl, rfl, rfl, rfl, rfl, rfl, rfl, rfl, rfl, rfl, rfl, rfl⟩
  · intro n tds sds name members vals hlook hnb hmap
    have hsum := foldlM_sum_of_mapM (resolveTypeSizeF n tds sds) members vals 0 hmap
    simp only [sizedBuiltins, List.mem_cons, List.mem_singleton] at hnb
    push_neg at hnb
    have h1 : ¬(resolveTypeName tds name = "int8" ∨ resolveTypeName tds name = "uint8" ∨
        resolveTypeName tds name = "char") := by
      push_neg
      exact ⟨hnb.1, hnb.2.1, hnb.2.2.1⟩
    have h2 : ¬(resolveTypeName tds name = "int16" ∨ resolveTypeName tds name = "uint16") := by
      push_neg
      exact ⟨hnb.2.2.2.1, hnb.2.2.2.2.1⟩
    have h3 : ¬(resolveTypeName tds name = "int32" ∨ resolveTypeName tds name = "uint32" ∨
        resolveTypeName tds name = "float") := by
      push_neg
      exact ⟨hnb.2.2.2.2.2.1, hnb.2.2.2.2.2.2.1, hnb.2.2.2.2.2.2.2.1⟩
    have h4 : ¬(resolveTypeName tds name = "int64" ∨ resolveTypeName tds name = "uint64" ∨
        resolveTypeName tds name = "double") := by
      push_neg
      exact ⟨hnb.2.2.2.2.2.2.2.2.1, hnb.2.2.2.2.2.2.2.2.2.1, hnb.2.2.2.2.2.2.2.2.2.2.1⟩
    show (let resolvedType := resolveTypeName tds name;
      if resolvedType = "int8" ∨ resolvedType = "uint8" ∨ resolvedType = "char" then
        (.ok 1 : Except String Int)
      else if resolvedType = "int16" ∨ resolvedType = "uint16" then .ok 2
      else if resolvedType = "int32" ∨ resolvedType = "uint32" ∨ resolvedType = "float" then .ok 4
      else if resolvedType = "int64" ∨ resolvedType = "uint64" ∨ resolvedType = "double" then .ok 8
      else
        match sds.lookup resolvedType with
        | some members =>
          members.foldlM (fun acc m => (resolveTypeSizeF n tds sds m).map (acc + ·)) 0
        | none => .error "Unknown type size") = .ok vals.sum
    simp only
    rw [if_neg h1, if_neg h2, if_neg h3, if_neg h4, hlook]
    show List.foldlM (fun acc m => (resolveTypeSizeF n tds sds m).map (acc + ·)) 0 members =
      .ok vals.sum
    rw [hsum, Int.zero_add]

/-- Claim C4 (witness for the amended theorem): `Point` with two `int32`
members is 8 bytes. -/
theorem c4_type_sizes_amended_witness :
    (List.lookup (resolveTypeName [] "Point") [("Point", ["int32", "int32"])] =
      some ["int32", "int32"]) ∧
    (resolveTypeName [] "Point" ∉ sizedBuiltins) ∧
    (["int32", "int32"].mapM
      (fun m => resolveTypeSizeF 1 [] [("Point", ["int32", "int32"])] m) =
      .ok [4, 4]) ∧
    resolveTypeSizeF 2 [] [("Point", ["int32", "int32"])] "Point" = .ok ([4, 4] : List Int).sum :=
  ⟨rfl, by decide, rfl,
   c4_type_sizes_amended.2 1 [] [("Point", ["int32", "int32"])] "Point"
     ["int32", "int32"] [4, 4] rfl (by decide) rfl⟩

/-- Claim C5: the spec says `#include "path"` resolves `path` against the
directory of the current file and `#include <path>` against the include
roots in order.  `handleInclude` strips the delimiters before calling
`resolveIncludePath`, whose branches test `filename.front() == '"'` and
`== '<'` on the stripped name — so both branches are dead: even when
`dir/lib.e` (resp. `root/m.e`) exists, the returned path is the bare name
unchanged. -/
theorem c5_include_resolution_eval :
    includeTarget "#include \"lib.e\"" = some "lib.e" ∧
    resolveIncludePath "lib.e" "dir" [] (fun p => p = "dir/lib.e") = "lib.e" ∧
    "lib.e" ≠ "dir/lib.e" ∧
    includeTarget "#include <m.e>" = some "m.e" ∧
    resolveIncludePath "m.e" "dir" ["root"] (fun p => p = "root/m.e") = "m.e" ∧
    "m.e" ≠ "root/m.e" :=
  ⟨rfl, by decide, by decide, rfl, by decide, by decide⟩

/-- Claim C6: the spec says a full definition after a header prototype of
the same name is accepted, and redeclaration is fatal exactly when the
name is in `existingFunctions` but not among the prototypes.  In the
code: (a) `parseHeader` never consumes the `{` of `header { ... };`, so
scenario E's token stream dies with "Expect statement." at the brace; and
(b) `parseFunction` rejects *any* name in `existing_functions` — the
`prototypes` member of parser.hpp is never consulted — so a definition
following a prototype registration is "Duplicated function name.".  Both
hold for every body parser. -/
theorem c6_prototype_redeclaration_eval :
    (∀ pb : BlockParser, parseTokens 40 pb (initP c6Tokens) = .error "Expect statement.") ∧
    (∀ pb : BlockParser,
      parseFunction 20 pb { initP c6DefTokens with existing_functions := ["ping"] } =
        .error "Duplicated function name.") :=
  ⟨fun _ => rfl, fun _ => rfl⟩

/-- Claim C7 (counterexample): for scenario B the block allocates 16 bytes
(`sub rsp, 16`), but the return emits `add rsp, 20` — the running
`totalLocalVarOffset` double-counts the declaration (16 rounded + 4 raw) —
so the claim's "N = bytes currently allocated" fails at the very first
return. -/
theorem c7_return_rsp_counterexample :
    (visitFunctionNode 20 c7FnScenB (mkCG [] [])).map CG.generated = .ok c7GenB ∧
    c7GenB.get? 7 = some "sub rsp, 16" ∧
    c7GenB.get? 12 = some "add rsp, 20" ∧
    c7GenB.get? 13 = some "jmp .L_return_f" ∧
    ("add rsp, 20" : String) ≠ "add rsp, 16" :=
  ⟨rfl, rfl, rfl, rfl, by decide⟩

/-- Claim C7 (amended): for every `return` the generator passes the
expression (if present) through the expression visitor and finally emits
`jmp .L_return_<fn>`; `add rsp, N` is emitted exactly when the running
`totalLocalVarOffset` counter is positive at that return, with `N` the
counter's current value — which need not equal the bytes the enclosing
blocks actually subtracted from `rsp` (see the counterexample) — and the
emitting return resets the counter to zero. -/
theorem c7_return_rsp_amended (n : Nat) (expr : Option Node) (s s' : CG)
    (h : visitReturnNode (n + 1) (Node.ret expr) s = .ok s') :
    ∃ s1 : CG,
      (match expr with
       | none => s1 = s
       | some e => visitExpressionNode n (some e) s = .ok s1) ∧
      (s1.totalLocalVarOffset > 0 →
        s'.generated = s1.generated ++
          ["add rsp, " ++ intToStr s1.totalLocalVarOffset,
           "jmp .L_return_" ++ s1.currentFunctionName] ∧
        s'.totalLocalVarOffset = 0) ∧
      (¬ s1.totalLocalVarOffset > 0 →
        s'.generated = s1.generated ++ ["jmp .L_return_" ++ s1.currentFunctionName] ∧
        s'.totalLocalVarOffset = s1.totalLocalVarOffset) := by
  rcases expr with _ | e
  · replace h : (.ok (emit
        (if s.totalLocalVarOffset > 0 then
          { (emit s ("add rsp, " ++ intToStr s.totalLocalVarOffset)) with
            totalLocalVarOffset := 0 }
         else s)
        ("jmp .L_return_" ++
          (if s.totalLocalVarOffset > 0 then
            { (emit s ("add rsp, " ++ intToStr s.totalLocalVarOffset)) with
              totalLocalVarOffset := 0 }
           else s).currentFunctionName)) : Except String CG) = .ok s' := h
    cases h
    refine ⟨s, rfl, ?_, ?_⟩
    · intro ht
      rw [if_pos ht]
      exact ⟨by simp [emit], rfl⟩
    · intro ht
      rw [if_neg ht]
      exact ⟨rfl, rfl⟩
  · replace h : (match visitExpressionNode n (some e) s with
                 | .error er => (.error er : Except String CG)
                 | .ok s1 =>
                   .ok (emit
                     (if s1.totalLocalVarOffset > 0 then
                       { (emit s1 ("add rsp, " ++ intToStr s1.totalLocalVarOffset)) with
                         totalLocalVarOffset := 0 }
                      else s1)
                     ("jmp .L_return_" ++
                       (if s1.totalLocalVarOffset > 0 then
                         { (emit s1 ("add rsp, " ++ intToStr s1.totalLocalVarOffset)) with
                           totalLocalVarOffset := 0 }
                        else s1).currentFunctionName))) = .ok s' := h
    rcases he : visitExpressionNode n (some e) s with er | s1 <;> rw [he] at h
    · cases h
    · cases h
      refine ⟨s1, he, ?_, ?_⟩
      · intro ht
        rw [if_pos ht]
        exact ⟨by simp [emit], rfl⟩
      · intro ht
        rw [if_neg ht]
        exact ⟨rfl, rfl⟩

/-- Claim C7 (witness): from a state whose counter is 20 although only 16
bytes were actually allocated (the state at scenario B's return), the visit
emits `add rsp, 20` followed by the jump and zeroes the counter. -/
theorem c7_return_rsp_amended_witness :
    ∃ s1 : CG,
      (match (none : Option Node) with
       | none => s1 = c7RetState
       | some e => visitExpressionNode 0 (some e) c7RetState = .ok s1) ∧
      (s1.totalLocalVarOffset > 0 →
        c7RetOut.generated = s1.generated ++
          ["add rsp, " ++ intToStr s1.totalLocalVarOffset,
           "jmp .L_return_" ++ s1.currentFunctionName] ∧
        c7RetOut.totalLocalVarOffset = 0) ∧
      (¬ s1.totalLocalVarOffset > 0 →
        c7RetOut.generated = s1.generated ++ ["jmp .L_return_" ++ s1.currentFunctionName] ∧
        c7RetOut.totalLocalVarOffset = s1.totalLocalVarOffset) :=
  c7_return_rsp_amended 0 none c7RetState c7RetOut rfl

/-- Claim C3: typedef-table insertion is not in `src/`; modelled from the
spec, each registration stores the canonical form of the old type (or the
sentinel `struct`), so every reachable table is canonical and one-step
`resolveTypeName` is already transitive: its result is a fixed point, and
for a registered name it is a built-in type name or `struct`. -/
theorem c3_resolve_fixed_point :
    ∀ (decls : List (String × Option String)) (t : String),
      resolveTypeName (buildTypedefs decls) (resolveTypeName (buildTypedefs decls) t) =
        resolveTypeName (buildTypedefs decls) t ∧
      ((buildTypedefs decls).lookup t ≠ none →
        resolveTypeName (buildTypedefs decls) t ∈ builtinTypes ∨
        resolveTypeName (buildTypedefs decls) t = "struct") := by
  intro decls t
  have hc := buildTypedefs_canonical decls
  refine ⟨resolveTypeName_fixed_of_canonical _ hc t, ?_⟩
  intro hl
  rcases hlk : (buildTypedefs decls).lookup t with _ | v
  · exact absurd hlk hl
  · have hv := (hc (t, v) (lookup_mem hlk)).1
    unfold resolveTypeName
    rw [hlk]
    exact hv

/-- Claim C3 (witness): `typedef int32 A; typedef A B;` — resolving `B`
gives `int32`, a fixed point and a built-in. -/
theorem c3_resolve_fixed_point_witness :
    (buildTypedefs c3Decls).lookup "B" ≠ none ∧
    resolveTypeName (buildTypedefs c3Decls) (resolveTypeName (buildTypedefs c3Decls) "B") =
      resolveTypeName (buildTypedefs c3Decls) "B" ∧
    (resolveTypeName (buildTypedefs c3Decls) "B" ∈ builtinTypes ∨
     resolveTypeName (buildTypedefs c3Decls) "B" = "struct") :=
  ⟨by decide, (c3_resolve_fixed_point c3Decls "B").1,
   (c3_resolve_fixed_point c3Decls "B").2 (by decide)⟩

/-- At an inner `{` the scanning loop of `parseAsm` never advances: the
`LEFT_BRACE` branch only increments `depth` and `continue`s, so from the
same position the loop runs forever, whatever the depth, accumulator or
remaining fuel. -/
theorem parseAsmScan_stuck_on_brace :
    ∀ (fuel : Nat) (d : Int) (acc : String),
      parseAsmScan fuel { initP c9Tokens with current := 2 } d acc = .error fuelMsg := by
  intro fuel
  induction fuel with
  | zero => intro d acc; rfl
  | succ n ih =>
    intro d acc
    have h1 : checkP .RIGHT_BRACE { initP c9Tokens with current := 2 } = false := rfl
    have h2 : checkP .LEFT_BRACE { initP c9Tokens with current := 2 } = true := rfl
    unfold parseAsmScan
    rw [if_pos, if_pos]
    · exact ih (d + 1) (acc.push (Char.ofNat 123))
    · rw [h2]
    · rw [h1]
      left
      decide

/-- Claim C9: the spec says `Parser::parseAsm` terminates on every finite
token vector because every loop iteration advances the token position.
In fact the brace branches execute `continue` without `consume()`: on the
token stream of `asm { { } };` the scan reaches the inner `{` and loops
forever (modelled as fuel exhaustion for every fuel). -/
theorem c9_parse_asm_nontermination :
    ∀ fuel : Nat, parseAsm fuel (initP c9Tokens) = .error fuelMsg := by
  intro fuel
  show (match parseAsmScan fuel { initP c9Tokens with current := 2 } 0 "" with
        | .error e => (.error e : Except String (Node × PState))
        | .ok (st3, src) =>
          match expectP .RIGHT_BRACE "Expect '\x7d' after inline asm block." st3 with
          | .error e => .error e
          | .ok st4 =>
            match expectP .SEMICOLON "Expect ';' after inline asm block." st4 with
            | .error e => .error e
            | .ok st5 => .ok (Node.asmNode src, st5)) = .error fuelMsg
  rw [parseAsmScan_stuck_on_brace fuel 0 ""]

/-- Claim C10: `Preprocessor::preprocess` returns `nullopt` exactly when
the input file cannot be opened or its contents are empty — `readFile`
collapses both to the empty string, which is the only condition that
yields `nullopt` (include failures are fatal, not `nullopt`); in
particular an existing zero-length file is rejected like a missing one. -/
theorem c10_preprocess_none_iff :
    ∀ (fs : String → Option String) (includePaths : List String) (filename : String),
      preprocess fs includePaths filename = .ok none ↔
        (fs filename = none ∨ fs filename = some "") := by
  intro fs ips f
  unfold preprocess
  by_cases hc : readFile fs f = ""
  · rw [if_pos hc]
    constructor
    · intro _
      unfold readFile at hc
      rcases hf : fs f with _ | s
      · exact Or.inl rfl
      · right
        rw [hf] at hc
        simp only [Option.getD_some] at hc
        rw [hc]
    · intro _
      rfl
  · rw [if_neg hc]
    constructor
    · intro h
      rcases hp : processLines fs ips (parentPath f) (cppLines (readFile fs f)) [] "" with e | out
      · rw [hp] at h
        cases h
      · rw [hp] at h
        cases h
    · intro h
      exfalso
      apply hc
      unfold readFile
      rcases h with h | h <;> rw [h] <;> rfl

/-! ## Claim C8: block-level `rsp` balance -/

mutual

/-- `true` when the node contains no `Return` statement anywhere. -/
def noRetN : Node → Bool
  | Node.ret _ => false
  | Node.block l => noRetL l
  | Node.if_ c b e => noRetN c && noRetN b && noRetO e
  | Node.while_ c b => noRetN c && noRetN b
  | Node.switch_ c l => noRetN c && noRetL l
  | Node.case_ v b => noRetN v && noRetN b
  | Node.default_ b => noRetN b
  | Node.expression l _ r => noRetO l && noRetO r
  | Node.varDeclAssign _ _ e _ => noRetN e
  | Node.assign _ e => noRetN e
  | Node.functionCall _ args => noRetL args
  | Node.function _ _ ps b => noRetL ps && noRetN b
  | Node.program l => noRetL l
  | _ => true

def noRetL : List Node → Bool
  | [] => true
  | x :: xs => noRetN x && noRetL xs

def noRetO : Option Node → Bool
  | none => true
  | some x => noRetN x

end

theorem deltaL_single (x : String) : deltaL [x] = lineDelta x := by
  unfold deltaL
  simp

/-- A digit run containing a final non-digit parses to nothing. -/
theorem digitsVal_append_nondigit (cs : List Char) (c : Char) (hc : digitVal c = none) :
    digitsVal (cs ++ [c]) = none := by
  unfold digitsVal
  rw [List.foldl_append]
  simp only [List.foldl_cons, List.foldl_nil, hc]
  rcases List.foldl _ (some 0) cs with _ | a <;> rfl

theorem lineDelta_str_head (l : String) (c : Char) (cs : List Char)
    (h : l.data = c :: cs) (h1 : c ≠ 'p') (h2 : c ≠ 's') (h3 : c ≠ 'a') :
    lineDelta l = 0 := by
  unfold lineDelta
  rw [h]
  exact lineDeltaChars_head c cs h1 h2 h3

theorem head_append (p q : String) (c : Char) (cs : List Char) (h : p.data = c :: cs) :
    (p ++ q).data = c :: (cs ++ q.data) := by
  rw [String.data_append, h, List.cons_append]

theorem ld_je (l : String) : lineDelta ("je " ++ l) = 0 :=
  lineDelta_str_head _ 'j' _ (head_append "je " l 'j' "e ".data rfl)
    (by decide) (by decide) (by decide)

theorem ld_jmp (l : String) : lineDelta ("jmp " ++ l) = 0 :=
  lineDelta_str_head _ 'j' _ (head_append "jmp " l 'j' "mp ".data rfl)
    (by decide) (by decide) (by decide)

theorem ld_call (l : String) : lineDelta ("call " ++ l) = 0 :=
  lineDelta_str_head _ 'c' _ (head_append "call " l 'c' "all ".data rfl)
    (by decide) (by decide) (by decide)

theorem ld_movconst (l : String) : lineDelta ("mov rax, " ++ l) = 0 :=
  lineDelta_str_head _ 'm' _ (head_append "mov rax, " l 'm' "ov rax, ".data rfl)
    (by decide) (by decide) (by decide)

theorem ld_movrbp (x y : String) : lineDelta (("mov [rbp" ++ x) ++ y) = 0 :=
  lineDelta_str_head _ 'm' _
    (head_append ("mov [rbp" ++ x) y 'm' ("ov [rbp".data ++ x.data)
      (head_append "mov [rbp" x 'm' "ov [rbp".data rfl))
    (by decide) (by decide) (by decide)

theorem ld_movreg (x y : String) : lineDelta (("mov " ++ x) ++ y) = 0 :=
  lineDelta_str_head _ 'm' _
    (head_append ("mov " ++ x) y 'm' ("ov ".data ++ x.data)
      (head_append "mov " x 'm' "ov ".data rfl))
    (by decide) (by decide) (by decide)

/-- Any label line `<something>:` is `rsp`-neutral: it cannot be a bare
`push`/`pop` (wrong final character), and a `sub rsp, `/`add rsp, `
prefix would leave a suffix ending in `:`, which fails to parse as a
number, giving amount 0. -/
theorem ld_label (l : String) : lineDelta (l ++ ":") = 0 := by
  unfold lineDelta
  rw [String.data_append]
  rw [show (":" : String).data = [':'] from rfl]
  unfold lineDeltaChars
  have hlast : ∀ m : List Char, (l.data ++ [':']) ≠ m → True := fun _ _ => trivial
  have hpush : ¬(l.data ++ [':'] = "push rax".data) := by
    intro hc
    have := congrArg List.getLast? hc
    rw [List.getLast?_concat] at this
    have h2 : ("push rax".data).getLast? = some 'x' := by decide
    rw [h2] at this
    cases this
  have hpop : ¬(l.data ++ [':'] = "pop rbx".data) := by
    intro hc
    have := congrArg List.getLast? hc
    rw [List.getLast?_concat] at this
    have h2 : ("pop rbx".data).getLast? = some 'x' := by decide
    rw [h2] at this
    cases this
  rw [if_neg hpush, if_neg hpop]
  have hdig : digitsVal ((l.data ++ [':']).drop 9) = none ∨ (l.data ++ [':']).drop 9 = [] := by
    rcases hlen : (l.data).length.lt_or_ge 9 with hl | hl
    · right
      rw [List.drop_eq_nil_iff]
      rw [List.length_append]
      simp only [List.length_singleton]
      omega
    · left
      have : (l.data ++ [':']).drop 9 = (l.data.drop 9) ++ [':'] := by
        rw [List.drop_append_of_le_length hl]
      rw [this]
      exact digitsVal_append_nondigit _ _ (by decide)
  rcases hdig with hd | hd <;> rw [hd] <;> split <;> try split
  all_goals first | rfl | decide | simp

theorem ld_opLines (op : String) (hl hr : Bool) : deltaL (opLines op hl hr) = 0 := by
  rw [opLines.eq_def]
  by_cases h0 : op = "+"
  · rw [if_pos h0]; decide
  rw [if_neg h0]
  by_cases h1 : op = "-"
  · rw [if_pos h1]
    by_cases hb : ¬hl = true ∧ hr = true
    · rw [if_pos hb]; decide
    · rw [if_neg hb]; decide
  rw [if_neg h1]
  by_cases h2 : op = "*"
  · rw [if_pos h2]; decide
  rw [if_neg h2]
  by_cases h3 : op = "/"
  · rw [if_pos h3]; decide
  rw [if_neg h3]
  by_cases h4 : op = "=="
  · rw [if_pos h4]; decide
  rw [if_neg h4]
  by_cases h5 : op = "!="
  · rw [if_pos h5]; decide
  rw [if_neg h5]
  by_cases h6 : op = "<"
  · rw [if_pos h6]; decide
  rw [if_neg h6]
  by_cases h7 : op = "<="
  · rw [if_pos h7]; decide
  rw [if_neg h7]
  by_cases h8 : op = ">"
  · rw [if_pos h8]; decide
  rw [if_neg h8]
  by_cases h9 : op = ">="
  · rw [if_pos h9]; decide
  rw [if_neg h9]
  by_cases h10 : op = "&"
  · rw [if_pos h10]; decide
  rw [if_neg h10]
  by_cases h11 : op = "|"
  · rw [if_pos h11]; decide
  rw [if_neg h11]
  by_cases h12 : op = "&&"
  · rw [if_pos h12]; decide
  rw [if_neg h12]
  by_cases h13 : op = "||"
  · rw [if_pos h13]; decide
  rw [if_neg h13]
  by_cases h14 : op = "!"
  · rw [if_pos h14]; decide
  rw [if_neg h14]
  decide

theorem emit_generated (s : CG) (l : String) : (emit s l).generated = s.generated ++ [l] := rfl

theorem emitMany_generated (s : CG) (ls : List String) :
    (emitMany s ls).generated = s.generated ++ ls := rfl

theorem addLocalVariable_generated (s : CG) (nm ty : String) (s' : CG)
    (h : addLocalVariable s nm ty = .ok s') : s'.generated = s.generated := by
  unfold addLocalVariable at h
  split at h
  · cases h
  · split at h
    · cases h
    · cases h
      rfl

theorem generateLabels_generated :
    ∀ (k : Nat) (s : CG), ((generateLabels k s).2).generated = s.generated := by
  intro k
  induction k with
  | zero => intro s; rfl
  | succ m ih =>
    intro s
    unfold generateLabels
    exact ih _

/-- Emission facts for the code-generator visitors at fuel `n`: every
successful visit only appends to `generated`; expression evaluation is
`rsp`-neutral; the call-argument loop pushes exactly once per
stack-passed argument; statement-level constructs are `rsp`-neutral when
they contain no `return`. -/
structure BalProp (n : Nat) : Prop where
  expr : ∀ c s s', visitExpressionNode n c s = .ok s' →
    ∃ new, s'.generated = s.generated ++ new ∧ deltaL new = 0
  operand : ∀ c s s', visitOperand n c s = .ok s' →
    ∃ new, s'.generated = s.generated ++ new ∧ deltaL new = 0
  vda : ∀ nd s s', visitVarDeclAssignNode n nd s = .ok s' →
    ∃ new, s'.generated = s.generated ++ new ∧ deltaL new = 0
  asgn : ∀ nd s s', visitAssignNode n nd s = .ok s' →
    ∃ new, s'.generated = s.generated ++ new ∧ deltaL new = 0
  retn : ∀ nd s s', visitReturnNode n nd s = .ok s' →
    ∃ new, s'.generated = s.generated ++ new
  ifn : ∀ nd s s', visitIfNode n nd s = .ok s' →
    ∃ new, s'.generated = s.generated ++ new ∧ (noRetN nd = true → deltaL new = 0)
  whilen : ∀ nd s s', visitWhileNode n nd s = .ok s' →
    ∃ new, s'.generated = s.generated ++ new ∧ (noRetN nd = true → deltaL new = 0)
  blockn : ∀ nd s s', visitBlockNode n nd s = .ok s' →
    ∃ new, s'.generated = s.generated ++ new ∧ (noRetN nd = true → deltaL new = 0)
  stmts : ∀ l s s', visitBlockStatements n l s = .ok s' →
    ∃ new, s'.generated = s.generated ++ new ∧ (noRetL l = true → deltaL new = 0)
  fcall : ∀ nd s s', visitFunctionCallNode n nd s = .ok s' →
    ∃ new, s'.generated = s.generated ++ new ∧ deltaL new = 0
  cargs : ∀ l s s', callArgsLoop n l s = .ok s' →
    ∃ new, s'.generated = s.generated ++ new ∧
      deltaL new = -8 * (((l.filter (fun p => ¬ p.1 < 6)).length : Nat) : Int)
  switchn : ∀ nd s s', visitSwitchNode n nd s = .ok s' →
    ∃ new, s'.generated = s.generated ++ new ∧ (noRetN nd = true → deltaL new = 0)
  phase1 : ∀ cs ls d s s', switchComparePhase n cs ls d s = .ok s' →
    ∃ new, s'.generated = s.generated ++ new ∧ (noRetL cs = true → deltaL new = 0)
  phase2 : ∀ cs ls s s', switchLabelPhase n cs ls s = .ok s' →
    ∃ new, s'.generated = s.generated ++ new ∧ (noRetL cs = true → deltaL new = 0)
  phase3 : ∀ cs s s', switchDefaultPhase n cs s = .ok s' →
    ∃ new, s'.generated = s.generated ++ new ∧ (noRetL cs = true → deltaL new = 0)

theorem bal_operand_step (n : Nat)
    (ihExpr : ∀ c s s', visitExpressionNode n c s = .ok s' →
      ∃ new, s'.generated = s.generated ++ new ∧ deltaL new = 0) :
    ∀ c s s', visitOperand (n + 1) c s = .ok s' →
      ∃ new, s'.generated = s.generated ++ new ∧ deltaL new = 0 := by
  intro c s s' h
  unfold visitOperand at h
  rcases c with _ | cn
  · exact ihExpr none s s' h
  · cases cn
    case literal v =>
      cases h
      exact ⟨["mov rax, " ++ v], rfl, by rw [deltaL_single, ld_movconst]⟩
    all_goals exact ihExpr _ s s' h

theorem vExpr_eq_nn (n : Nat) (op : String) (s : CG) :
    visitExpressionNode (n + 1) (some (Node.expression none op none)) s =
      .ok (emitMany s (opLines op false false)) := rfl

theorem vExpr_eq_ns (n : Nat) (op : String) (r : Node) (s : CG) :
    visitExpressionNode (n + 1) (some (Node.expression none op (some r))) s =
      match visitOperand n (some r) s with
      | .error e => .error e
      | .ok s2 => .ok (emitMany s2 (opLines op false true)) := rfl

theorem vExpr_eq_sn (n : Nat) (op : String) (l : Node) (s : CG) :
    visitExpressionNode (n + 1) (some (Node.expression (some l) op none)) s =
      match visitOperand n (some l) s with
      | .error e => .error e
      | .ok s1 =>
        .ok (emitMany (emit (emit s1 "push rax") "pop rbx") (opLines op true false)) := by
  show (match (match visitOperand n (some l) s with
               | .error e => (.error e : Except String CG)
               | .ok s1 => .ok (emit s1 "push rax")) with
        | .error e => (.error e : Except String CG)
        | .ok s1 =>
          match (.ok s1 : Except String CG) with
          | .error e => .error e
          | .ok s2 =>
            let s3 := if (some l).isSome then emit s2 "pop rbx" else s2
            .ok (emitMany s3 (opLines op (some l).isSome (none : Option Node).isSome))) = _
  rcases visitOperand n (some l) s with e | s1 <;> rfl

theorem vExpr_eq_ss (n : Nat) (op : String) (l r : Node) (s : CG) :
    visitExpressionNode (n + 1) (some (Node.expression (some l) op (some r))) s =
      match visitOperand n (some l) s with
      | .error e => .error e
      | .ok s1 =>
        match visitOperand n (some r) (emit s1 "push rax") with
        | .error e => .error e
        | .ok s2 => .ok (emitMany (emit s2 "pop rbx") (opLines op true true)) := by
  show (match (match visitOperand n (some l) s with
               | .error e => (.error e : Except String CG)
               | .ok s1 => .ok (emit s1 "push rax")) with
        | .error e => (.error e : Except String CG)
        | .ok s1 =>
          match visitOperand n (some r) s1 with
          | .error e => .error e
          | .ok s2 =>
            let s3 := if (some l).isSome then emit s2 "pop rbx" else s2
            .ok (emitMany s3 (opLines op (some l).isSome (some r).isSome))) = _
  rcases visitOperand n (some l) s with e | s1
  · rfl
  · rcases visitOperand n (some r) (emit s1 "push rax") with e | s2 <;> rfl

theorem bal_expr_step (n : Nat)
    (ihOp : ∀ c s s', visitOperand n c s = .ok s' →
      ∃ new, s'.generated = s.generated ++ new ∧ deltaL new = 0) :
    ∀ c s s', visitExpressionNode (n + 1) c s = .ok s' →
      ∃ new, s'.generated = s.generated ++ new ∧ deltaL new = 0 := by
  intro c s s' h
  rcases c with _ | cn
  · cases h
    exact ⟨[], by simp, rfl⟩
  · cases cn
    case expression left op right =>
      rcases left with _ | lnode
      · rcases right with _ | rnode
        · rw [vExpr_eq_nn] at h
          cases h
          exact ⟨opLines op false false, emitMany_generated s _, ld_opLines op false false⟩
        · rw [vExpr_eq_ns] at h
          rcases hr : visitOperand n (some rnode) s with e | s2 <;> rw [hr] at h
          · cases h
          · cases h
            obtain ⟨newR, hgR, hdR⟩ := ihOp (some rnode) s s2 hr
            refine ⟨newR ++ opLines op false true, ?_, ?_⟩
            · rw [emitMany_generated, hgR, List.append_assoc]
            · rw [deltaL_append, hdR, ld_opLines]
              decide
      · rcases right with _ | rnode
        · rw [vExpr_eq_sn] at h
          rcases hl : visitOperand n (some lnode) s with e | s1 <;> rw [hl] at h
          · cases h
          · cases h
            obtain ⟨newL, hgL, hdL⟩ := ihOp (some lnode) s s1 hl
            refine ⟨newL ++ ["push rax", "pop rbx"] ++ opLines op true false, ?_, ?_⟩
            · rw [emitMany_generated, emit_generated, emit_generated, hgL]
              simp [List.append_assoc]
            · rw [deltaL_append, deltaL_append, hdL, ld_opLines]
              decide
        · rw [vExpr_eq_ss] at h
          rcases hl : visitOperand n (some lnode) s with e | s1 <;> rw [hl] at h
          · cases h
          · replace h : (match visitOperand n (some rnode) (emit s1 "push rax") with
                         | .error e => (.error e : Except String CG)
                         | .ok s2 =>
                           .ok (emitMany (emit s2 "pop rbx") (opLines op true true))) =
                .ok s' := h
            rcases hr : visitOperand n (some rnode) (emit s1 "push rax") with e | s2 <;>
              rw [hr] at h
            · cases h
            · cases h
              obtain ⟨newL, hgL, hdL⟩ := ihOp (some lnode) s s1 hl
              obtain ⟨newR, hgR, hdR⟩ := ihOp (some rnode) (emit s1 "push rax") s2 hr
              refine ⟨newL ++ "push rax" :: newR ++ "pop rbx" :: opLines op true true, ?_, ?_⟩
              · rw [emitMany_generated, emit_generated, hgR, emit_generated, hgL]
                simp [List.append_assoc]
              · simp only [deltaL_append, deltaL_cons, hdL, hdR, ld_opLines]
                decide
    all_goals (cases h; exact ⟨[], by simp, rfl⟩)

theorem ld_sub_add_cancel (x : String) :
    lineDelta ("sub rsp, " ++ x) + lineDelta ("add rsp, " ++ x) = 0 := by
  have hlen : ("sub rsp, ".data).length = 9 := by decide
  have hlen2 : ("add rsp, ".data).length = 9 := by decide
  have h1 : lineDelta ("sub rsp, " ++ x) = -(((digitsVal x.data).getD 0 : Nat) : Int) := by
    unfold lineDelta
    rw [String.data_append]
    unfold lineDeltaChars
    rw [if_neg, if_neg, if_pos, ← hlen, List.drop_left]
    · rw [← hlen]
      exact List.take_left _ _
    · intro hc
      have hlc := congrArg List.length hc
      rw [List.length_append, hlen] at hlc
      have : ("pop rbx".data).length = 7 := by decide
      omega
    · intro hc
      have hlc := congrArg List.length hc
      rw [List.length_append, hlen] at hlc
      have : ("push rax".data).length = 8 := by decide
      omega
  have h2 : lineDelta ("add rsp, " ++ x) = (((digitsVal x.data).getD 0 : Nat) : Int) := by
    unfold lineDelta
    rw [String.data_append]
    unfold lineDeltaChars
    have htake : ("add rsp, ".data ++ x.data).take 9 = "add rsp, ".data := by
      rw [← hlen2]
      exact List.take_left _ _
    rw [if_neg, if_neg, if_neg, if_pos htake, ← hlen2, List.drop_left]
    · rw [htake]
      decide
    · intro hc
      have hlc := congrArg List.length hc
      rw [List.length_append, hlen2] at hlc
      have : ("pop rbx".data).length = 7 := by decide
      omega
    · intro hc
      have hlc := congrArg List.length hc
      rw [List.length_append, hlen2] at hlc
      have : ("push rax".data).length = 8 := by decide
      omega
  rw [h1, h2]
  ring

theorem noRetL_cons (x : Node) (xs : List Node) :
    noRetL (x :: xs) = (noRetN x && noRetL xs) := rfl

theorem noRetN_if (c b : Node) (e : Option Node) :
    noRetN (Node.if_ c b e) = (noRetN c && noRetN b && noRetO e) := rfl

theorem noRetN_while (c b : Node) :
    noRetN (Node.while_ c b) = (noRetN c && noRetN b) := rfl

theorem noRetN_switch (c : Node) (l : List Node) :
    noRetN (Node.switch_ c l) = (noRetN c && noRetL l) := rfl

theorem noRetN_block (l : List Node) : noRetN (Node.block l) = noRetL l := rfl

theorem noRetN_case (v b : Node) : noRetN (Node.case_ v b) = (noRetN v && noRetN b) := rfl

theorem noRetN_default (b : Node) : noRetN (Node.default_ b) = noRetN b := rfl

theorem ld_movrbp_plus (x : String) :
    lineDelta (("mov [rbp+" ++ x) ++ "], rax") = 0 :=
  lineDelta_str_head _ 'm' _
    (head_append ("mov [rbp+" ++ x) "], rax" 'm' ("ov [rbp+".data ++ x.data)
      (head_append "mov [rbp+" x 'm' "ov [rbp+".data rfl))
    (by decide) (by decide) (by decide)

theorem bal_vda_step (n : Nat)
    (ihExpr : ∀ c s s', visitExpressionNode n c s = .ok s' →
      ∃ new, s'.generated = s.generated ++ new ∧ deltaL new = 0) :
    ∀ nd s s', visitVarDeclAssignNode (n + 1) nd s = .ok s' →
      ∃ new, s'.generated = s.generated ++ new ∧ deltaL new = 0 := by
  intro nd s s' h
  cases nd <;> try cases h
  case varDeclAssign ty nm expr i =>
    replace h : (match addLocalVariable s nm ty with
                 | .error e => (.error e : Except String CG)
                 | .ok s1 =>
                   match visitExpressionNode n (some expr) s1 with
                   | .error e => .error e
                   | .ok s2 =>
                     match getLocalVariableOffset s2 nm with
                     | .error e => .error e
                     | .ok off =>
                       .ok (emit s2 ("mov [rbp" ++ intToStr off ++ "], rax"))) = .ok s' := h
    rcases ha : addLocalVariable s nm ty with e | s1 <;> rw [ha] at h
    · cases h
    · replace h : (match visitExpressionNode n (some expr) s1 with
                   | .error e => (.error e : Except String CG)
                   | .ok s2 =>
                     match getLocalVariableOffset s2 nm with
                     | .error e => .error e
                     | .ok off =>
                       .ok (emit s2 ("mov [rbp" ++ intToStr off ++ "], rax"))) = .ok s' := h
      rcases he : visitExpressionNode n (some expr) s1 with e | s2 <;> rw [he] at h
      · cases h
      · replace h : (match getLocalVariableOffset s2 nm with
                     | .error e => (.error e : Except String CG)
                     | .ok off =>
                       .ok (emit s2 ("mov [rbp" ++ intToStr off ++ "], rax"))) = .ok s' := h
        rcases ho : getLocalVariableOffset s2 nm with e | off <;> rw [ho] at h
        · cases h
        · cases h
          obtain ⟨newE, hgE, hdE⟩ := ihExpr (some expr) s1 s2 he
          have hg1 : s1.generated = s.generated := addLocalVariable_generated s nm ty s1 ha
          refine ⟨newE ++ ["mov [rbp" ++ intToStr off ++ "], rax"], ?_, ?_⟩
          · rw [emit_generated, hgE, hg1, List.append_assoc]
          · rw [deltaL_append, hdE, deltaL_single, ld_movrbp]
            decide

theorem bal_asgn_step (n : Nat)
    (ihExpr : ∀ c s s', visitExpressionNode n c s = .ok s' →
      ∃ new, s'.generated = s.generated ++ new ∧ deltaL new = 0) :
    ∀ nd s s', visitAssignNode (n + 1) nd s = .ok s' →
      ∃ new, s'.generated = s.generated ++ new ∧ deltaL new = 0 := by
  intro nd s s' h
  cases nd <;> try cases h
  case assign nm expr =>
    replace h : (match visitExpressionNode n (some expr) s with
                 | .error e => (.error e : Except String CG)
                 | .ok s1 =>
                   match getLocalVariableOffset s1 nm with
                   | .error e => .error e
                   | .ok off =>
                     if off < 0 then .ok (emit s1 ("mov [rbp" ++ intToStr off ++ "], rax"))
                     else .ok (emit s1 ("mov [rbp+" ++ intToStr off ++ "], rax"))) = .ok s' := h
    rcases he : visitExpressionNode n (some expr) s with e | s1 <;> rw [he] at h
    · cases h
    · replace h : (match getLocalVariableOffset s1 nm with
                   | .error e => (.error e : Except String CG)
                   | .ok off =>
                     if off < 0 then .ok (emit s1 ("mov [rbp" ++ intToStr off ++ "], rax"))
                     else .ok (emit s1 ("mov [rbp+" ++ intToStr off ++ "], rax"))) = .ok s' := h
      rcases ho : getLocalVariableOffset s1 nm with e | off <;> rw [ho] at h
      · cases h
      · replace h : (if off < 0 then
                       .ok (emit s1 ("mov [rbp" ++ intToStr off ++ "], rax"))
                     else (.ok (emit s1 ("mov [rbp+" ++ intToStr off ++ "], rax")) :
                       Except String CG)) = .ok s' := h
        obtain ⟨newE, hgE, hdE⟩ := ihExpr (some expr) s s1 he
        by_cases hoff : off < 0
        · rw [if_pos hoff] at h
          cases h
          refine ⟨newE ++ ["mov [rbp" ++ intToStr off ++ "], rax"], ?_, ?_⟩
          · rw [emit_generated, hgE, List.append_assoc]
          · rw [deltaL_append, hdE, deltaL_single, ld_movrbp]
            decide
        · rw [if_neg hoff] at h
          cases h
          refine ⟨newE ++ ["mov [rbp+" ++ intToStr off ++ "], rax"], ?_, ?_⟩
          · rw [emit_generated, hgE, List.append_assoc]
          · rw [deltaL_append, hdE, deltaL_single, ld_movrbp_plus]
            decide

theorem bal_ret_step (n : Nat)
    (ihExpr : ∀ c s s', visitExpressionNode n c s = .ok s' →
      ∃ new, s'.generated = s.generated ++ new ∧ deltaL new = 0) :
    ∀ nd s s', visitReturnNode (n + 1) nd s = .ok s' →
      ∃ new, s'.generated = s.generated ++ new := by
  intro nd s s' h
  cases nd <;> try cases h
  case ret expr =>
    rcases expr with _ | e
    · replace h : (.ok (emit
          (if s.totalLocalVarOffset > 0 then
            { (emit s ("add rsp, " ++ intToStr s.totalLocalVarOffset)) with
              totalLocalVarOffset := 0 }
           else s)
          ("jmp .L_return_" ++
            (if s.totalLocalVarOffset > 0 then
              { (emit s ("add rsp, " ++ intToStr s.totalLocalVarOffset)) with
                totalLocalVarOffset := 0 }
             else s).currentFunctionName)) : Except String CG) = .ok s' := h
      cases h
      by_cases ht : s.totalLocalVarOffset > 0
      · rw [if_pos ht]
        exact ⟨["add rsp, " ++ intToStr s.totalLocalVarOffset,
                "jmp .L_return_" ++
                  ({ (emit s ("add rsp, " ++ intToStr s.totalLocalVarOffset)) with
                     totalLocalVarOffset := 0 } : CG).currentFunctionName],
               by rw [emit_generated, emit_generated, List.append_assoc]; rfl⟩
      · rw [if_neg ht]
        exact ⟨["jmp .L_return_" ++ s.currentFunctionName], by rw [emit_generated]⟩
    · replace h : (match visitExpressionNode n (some e) s with
                   | .error er => (.error er : Except String CG)
                   | .ok s1 =>
                     .ok (emit
                       (if s1.totalLocalVarOffset > 0 then
                         { (emit s1 ("add rsp, " ++ intToStr s1.totalLocalVarOffset)) with
                           totalLocalVarOffset := 0 }
                        else s1)
                       ("jmp .L_return_" ++
                         (if s1.totalLocalVarOffset > 0 then
                           { (emit s1 ("add rsp, " ++ intToStr s1.totalLocalVarOffset)) with
                             totalLocalVarOffset := 0 }
                          else s1).currentFunctionName))) = .ok s' := h
      rcases he : visitExpressionNode n (some e) s with er | s1 <;> rw [he] at h
      · cases h
      · cases h
        obtain ⟨newE, hgE, _⟩ := ihExpr (some e) s s1 he
        by_cases ht : s1.totalLocalVarOffset > 0
        · rw [if_pos ht]
          refine ⟨newE ++ ["add rsp, " ++ intToStr s1.totalLocalVarOffset,
                  "jmp .L_return_" ++
                    ({ (emit s1 ("add rsp, " ++ intToStr s1.totalLocalVarOffset)) with
                       totalLocalVarOffset := 0 } : CG).currentFunctionName], ?_⟩
          rw [emit_generated, emit_generated, hgE]
          simp [List.append_assoc]
        · rw [if_neg ht]
          refine ⟨newE ++ ["jmp .L_return_" ++ s1.currentFunctionName], ?_⟩
          rw [emit_generated, hgE, List.append_assoc]

theorem bal_if_step (n : Nat)
    (ihExpr : ∀ c s s', visitExpressionNode n c s = .ok s' →
      ∃ new, s'.generated = s.generated ++ new ∧ deltaL new = 0)
    (ihBlock : ∀ nd s s', visitBlockNode n nd s = .ok s' →
      ∃ new, s'.generated = s.generated ++ new ∧ (noRetN nd = true → deltaL new = 0))
    (ihIf : ∀ nd s s', visitIfNode n nd s = .ok s' →
      ∃ new, s'.generated = s.generated ++ new ∧ (noRetN nd = true → deltaL new = 0)) :
    ∀ nd s s', visitIfNode (n + 1) nd s = .ok s' →
      ∃ new, s'.generated = s.generated ++ new ∧ (noRetN nd = true → deltaL new = 0) := by
  intro nd s s' h
  cases nd <;> try cases h
  case if_ cond body els =>
    replace h : (match visitExpressionNode n (some cond)
                   ({ s with labelCounter := s.labelCounter + 1 + 1 } : CG) with
                 | .error e => (.error e : Except String CG)
                 | .ok s1 =>
                   match visitBlockNode n body
                       (emit (emit s1 "cmp rax, 0")
                         ("je " ++ ("L" ++ natToStr s.labelCounter))) with
                   | .error e => .error e
                   | .ok s3 =>
                     match (match els with
                            | some (Node.block bs) =>
                              visitBlockNode n (Node.block bs)
                                (emit (emit s3 ("jmp " ++ ("L" ++ natToStr (s.labelCounter + 1))))
                                  (("L" ++ natToStr s.labelCounter) ++ ":"))
                            | some (Node.if_ c b e2) =>
                              visitIfNode n (Node.if_ c b e2)
                                (emit (emit s3 ("jmp " ++ ("L" ++ natToStr (s.labelCounter + 1))))
                                  (("L" ++ natToStr s.labelCounter) ++ ":"))
                            | _ =>
                              .ok (emit (emit s3 ("jmp " ++ ("L" ++ natToStr (s.labelCounter + 1))))
                                (("L" ++ natToStr s.labelCounter) ++ ":"))) with
                     | .error e => .error e
                     | .ok s5 =>
                       .ok (emit s5 (("L" ++ natToStr (s.labelCounter + 1)) ++ ":"))) = .ok s' := h
    have hsb : ({ s with labelCounter := s.labelCounter + 1 + 1 } : CG).generated =
        s.generated := rfl
    have hcmp : lineDelta "cmp rax, 0" = 0 := by decide
    rcases he : visitExpressionNode n (some cond)
        ({ s with labelCounter := s.labelCounter + 1 + 1 } : CG) with e | s1 <;> rw [he] at h
    · cases h
    · replace h : (match visitBlockNode n body
                       (emit (emit s1 "cmp rax, 0")
                         ("je " ++ ("L" ++ natToStr s.labelCounter))) with
                   | .error e => (.error e : Except String CG)
                   | .ok s3 =>
                     match (match els with
                            | some (Node.block bs) =>
                              visitBlockNode n (Node.block bs)
                                (emit (emit s3 ("jmp " ++ ("L" ++ natToStr (s.labelCounter + 1))))
                                  (("L" ++ natToStr s.labelCounter) ++ ":"))
                            | some (Node.if_ c b e2) =>
                              visitIfNode n (Node.if_ c b e2)
                                (emit (emit s3 ("jmp " ++ ("L" ++ natToStr (s.labelCounter + 1))))
                                  (("L" ++ natToStr s.labelCounter) ++ ":"))
                            | _ =>
                              .ok (emit (emit s3 ("jmp " ++ ("L" ++ natToStr (s.labelCounter + 1))))
                                (("L" ++ natToStr s.labelCounter) ++ ":"))) with
                     | .error e => .error e
                     | .ok s5 =>
                       .ok (emit s5 (("L" ++ natToStr (s.labelCounter + 1)) ++ ":"))) = .ok s' := h
      rcases hb : visitBlockNode n body
          (emit (emit s1 "cmp rax, 0")
            ("je " ++ ("L" ++ natToStr s.labelCounter))) with e | s3 <;> rw [hb] at h
      · cases h
      · obtain ⟨newE, hgE, hdE⟩ := ihExpr (some cond) _ s1 he
        obtain ⟨newB, hgB, hcB⟩ := ihBlock body _ s3 hb
        rw [hsb] at hgE
        rw [emit_generated, emit_generated, hgE] at hgB
        rcases els with _ | en
        · cases h
          refine ⟨newE ++ ["cmp rax, 0", "je " ++ ("L" ++ natToStr s.labelCounter)] ++ newB ++
              ["jmp " ++ ("L" ++ natToStr (s.labelCounter + 1)),
               ("L" ++ natToStr s.labelCounter) ++ ":",
               ("L" ++ natToStr (s.labelCounter + 1)) ++ ":"], ?_, ?_⟩
          · simp only [emit_generated, hgB, List.append_assoc, List.cons_append,
              List.nil_append]
          · intro hnr
            have hnr' : (noRetN cond && noRetN body && noRetO (none : Option Node)) = true := hnr
            rw [Bool.and_eq_true, Bool.and_eq_true] at hnr'
            simp only [deltaL_append, deltaL_cons, deltaL_nil, hdE, hcB hnr'.1.2, hcmp,
              ld_je, ld_jmp, ld_label]
            ring
        · cases en
          case if_ c b e2 =>
            replace h : (match visitIfNode n (Node.if_ c b e2)
                             (emit (emit s3 ("jmp " ++ ("L" ++ natToStr (s.labelCounter + 1))))
                               (("L" ++ natToStr s.labelCounter) ++ ":")) with
                         | .error e => (.error e : Except String CG)
                         | .ok s5 =>
                           .ok (emit s5 (("L" ++ natToStr (s.labelCounter + 1)) ++ ":"))) =
                .ok s' := h
            rcases hel : visitIfNode n (Node.if_ c b e2)
                (emit (emit s3 ("jmp " ++ ("L" ++ natToStr (s.labelCounter + 1))))
                  (("L" ++ natToStr s.labelCounter) ++ ":")) with e | s5 <;> rw [hel] at h
            · cases h
            · cases h
              obtain ⟨newEl, hgEl, hcEl⟩ := ihIf (Node.if_ c b e2) _ s5 hel
              refine ⟨newE ++ ["cmp rax, 0", "je " ++ ("L" ++ natToStr s.labelCounter)] ++
                  newB ++
                  ["jmp " ++ ("L" ++ natToStr (s.labelCounter + 1)),
                   ("L" ++ natToStr s.labelCounter) ++ ":"] ++ newEl ++
                  [("L" ++ natToStr (s.labelCounter + 1)) ++ ":"], ?_, ?_⟩
              · simp only [emit_generated, hgEl, hgB, List.append_assoc, List.cons_append,
                  List.nil_append]
              · intro hnr
                have hnr' : (noRetN cond && noRetN body && noRetN (Node.if_ c b e2)) =
                    true := hnr
                rw [Bool.and_eq_true, Bool.and_eq_true] at hnr'
                simp only [deltaL_append, deltaL_cons, deltaL_nil, hdE, hcB hnr'.1.2,
                  hcEl hnr'.2, hcmp, ld_je, ld_jmp, ld_label]
                ring
          case block bs =>
            replace h : (match visitBlockNode n (Node.block bs)
                             (emit (emit s3 ("jmp " ++ ("L" ++ natToStr (s.labelCounter + 1))))
                               (("L" ++ natToStr s.labelCounter) ++ ":")) with
                         | .error e => (.error e : Except String CG)
                         | .ok s5 =>
                           .ok (emit s5 (("L" ++ natToStr (s.labelCounter + 1)) ++ ":"))) =
                .ok s' := h
            rcases hel : visitBlockNode n (Node.block bs)
                (emit (emit s3 ("jmp " ++ ("L" ++ natToStr (s.labelCounter + 1))))
                  (("L" ++ natToStr s.labelCounter) ++ ":")) with e | s5 <;> rw [hel] at h
            · cases h
            · cases h
              obtain ⟨newEl, hgEl, hcEl⟩ := ihBlock (Node.block bs) _ s5 hel
              refine ⟨newE ++ ["cmp rax, 0", "je " ++ ("L" ++ natToStr s.labelCounter)] ++
                  newB ++
                  ["jmp " ++ ("L" ++ natToStr (s.labelCounter + 1)),
                   ("L" ++ natToStr s.labelCounter) ++ ":"] ++ newEl ++
                  [("L" ++ natToStr (s.labelCounter + 1)) ++ ":"], ?_, ?_⟩
              · simp only [emit_generated, hgEl, hgB, List.append_assoc, List.cons_append,
                  List.nil_append]
              · intro hnr
                have hnr' : (noRetN cond && noRetN body && noRetN (Node.block bs)) =
                    true := hnr
                rw [Bool.and_eq_true, Bool.and_eq_true] at hnr'
                simp only [deltaL_append, deltaL_cons, deltaL_nil, hdE, hcB hnr'.1.2,
                  hcEl hnr'.2, hcmp, ld_je, ld_jmp, ld_label]
                ring
          all_goals
            (cases h
             refine ⟨newE ++ ["cmp rax, 0", "je " ++ ("L" ++ natToStr s.labelCounter)] ++
                newB ++
                ["jmp " ++ ("L" ++ natToStr (s.labelCounter + 1)),
                 ("L" ++ natToStr s.labelCounter) ++ ":",
                 ("L" ++ natToStr (s.labelCounter + 1)) ++ ":"], ?_, ?_⟩
             · simp only [emit_generated, hgB, List.append_assoc, List.cons_append,
                 List.nil_append]
             · intro hnr
               rw [noRetN_if, Bool.and_eq_true, Bool.and_eq_true] at hnr
               simp only [deltaL_append, deltaL_cons, deltaL_nil, hdE, hcB hnr.1.2, hcmp,
                 ld_je, ld_jmp, ld_label]
               ring)

theorem bal_while_step (n : Nat)
    (ihExpr : ∀ c s s', visitExpressionNode n c s = .ok s' →
      ∃ new, s'.generated = s.generated ++ new ∧ deltaL new = 0)
    (ihBlock : ∀ nd s s', visitBlockNode n nd s = .ok s' →
      ∃ new, s'.generated = s.generated ++ new ∧ (noRetN nd = true → deltaL new = 0)) :
    ∀ nd s s', visitWhileNode (n + 1) nd s = .ok s' →
      ∃ new, s'.generated = s.generated ++ new ∧ (noRetN nd = true → deltaL new = 0) := by
  intro nd s s' h
  cases nd <;> try cases h
  case while_ cond body =>
    replace h : (match visitExpressionNode n (some cond)
                   (emit ({ s with
                        labelCounter := s.labelCounter + 1 + 1
                        loopContextStack :=
                          ("L" ++ natToStr s.labelCounter,
                           "L" ++ natToStr (s.labelCounter + 1)) :: s.loopContextStack } : CG)
                     (("L" ++ natToStr s.labelCounter) ++ ":")) with
                 | .error e => (.error e : Except String CG)
                 | .ok s3 =>
                   match visitBlockNode n body
                       (emit (emit s3 "cmp rax, 0")
                         ("je " ++ ("L" ++ natToStr (s.labelCounter + 1)))) with
                   | .error e => .error e
                   | .ok s5 =>
                     .ok { (emit (emit s5 ("jmp " ++ ("L" ++ natToStr s.labelCounter)))
                             (("L" ++ natToStr (s.labelCounter + 1)) ++ ":")) with
                           loopContextStack :=
                             (emit (emit s5 ("jmp " ++ ("L" ++ natToStr s.labelCounter)))
                               (("L" ++ natToStr (s.labelCounter + 1)) ++
                                 ":")).loopContextStack.tail }) = .ok s' := h
    have hcmp : lineDelta "cmp rax, 0" = 0 := by decide
    have hs2 : (emit ({ s with
          labelCounter := s.labelCounter + 1 + 1
          loopContextStack :=
            ("L" ++ natToStr s.labelCounter,
             "L" ++ natToStr (s.labelCounter + 1)) :: s.loopContextStack } : CG)
        (("L" ++ natToStr s.labelCounter) ++ ":")).generated =
        s.generated ++ [("L" ++ natToStr s.labelCounter) ++ ":"] := rfl
    rcases he : visitExpressionNode n (some cond)
        (emit ({ s with
             labelCounter := s.labelCounter + 1 + 1
             loopContextStack :=
               ("L" ++ natToStr s.labelCounter,
                "L" ++ natToStr (s.labelCounter + 1)) :: s.loopContextStack } : CG)
          (("L" ++ natToStr s.labelCounter) ++ ":")) with e | s3 <;> rw [he] at h
    · cases h
    · replace h : (match visitBlockNode n body
                       (emit (emit s3 "cmp rax, 0")
                         ("je " ++ ("L" ++ natToStr (s.labelCounter + 1)))) with
                   | .error e => (.error e : Except String CG)
                   | .ok s5 =>
                     .ok { (emit (emit s5 ("jmp " ++ ("L" ++ natToStr s.labelCounter)))
                             (("L" ++ natToStr (s.labelCounter + 1)) ++ ":")) with
                           loopContextStack :=
                             (emit (emit s5 ("jmp " ++ ("L" ++ natToStr s.labelCounter)))
                               (("L" ++ natToStr (s.labelCounter + 1)) ++
                                 ":")).loopContextStack.tail }) = .ok s' := h
      rcases hb : visitBlockNode n body
          (emit (emit s3 "cmp rax, 0")
            ("je " ++ ("L" ++ natToStr (s.labelCounter + 1)))) with e | s5 <;> rw [hb] at h
      · cases h
      · cases h
        obtain ⟨newE, hgE, hdE⟩ := ihExpr (some cond) _ s3 he
        obtain ⟨newB, hgB, hcB⟩ := ihBlock body _ s5 hb
        rw [hs2] at hgE
        rw [emit_generated, emit_generated, hgE] at hgB
        refine ⟨[("L" ++ natToStr s.labelCounter) ++ ":"] ++ newE ++
            ["cmp rax, 0", "je " ++ ("L" ++ natToStr (s.labelCounter + 1))] ++ newB ++
            ["jmp " ++ ("L" ++ natToStr s.labelCounter),
             ("L" ++ natToStr (s.labelCounter + 1)) ++ ":"], ?_, ?_⟩
        · show (emit (emit s5 ("jmp " ++ ("L" ++ natToStr s.labelCounter)))
              (("L" ++ natToStr (s.labelCounter + 1)) ++ ":")).generated = _
          simp only [emit_generated, hgB, List.append_assoc, List.cons_append, List.nil_append]
        · intro hnr
          rw [noRetN_while, Bool.and_eq_true] at hnr
          simp only [deltaL_append, deltaL_cons, deltaL_nil, hdE, hcB hnr.2, hcmp,
            ld_je, ld_jmp, ld_label]
          ring

theorem bal_block_step (n : Nat)
    (ihStmts : ∀ l s s', visitBlockStatements n l s = .ok s' →
      ∃ new, s'.generated = s.generated ++ new ∧ (noRetL l = true → deltaL new = 0)) :
    ∀ nd s s', visitBlockNode (n + 1) nd s = .ok s' →
      ∃ new, s'.generated = s.generated ++ new ∧ (noRetN nd = true → deltaL new = 0) := by
  intro nd s s' h
  cases nd <;> try cases h
  case block stmts =>
    rcases stmts with _ | ⟨st0, rest⟩
    · replace h : (.ok ({ s with localVarStack := [] :: s.localVarStack } : CG) :
          Except String CG) = .ok s' := h
      cases h
      exact ⟨[], by simp, fun _ => rfl⟩
    · replace h : (match calculateLocalVariableSize s (st0 :: rest) with
                   | .error e => (.error e : Except String CG)
                   | .ok size =>
                     match visitBlockStatements n (st0 :: rest)
                         (if roundUp16 size > 0 then
                           { (emit ({ s with localVarStack := [] :: s.localVarStack } : CG)
                               ("sub rsp, " ++ intToStr (roundUp16 size))) with
                             totalLocalVarOffset :=
                               (emit ({ s with localVarStack := [] :: s.localVarStack } : CG)
                                 ("sub rsp, " ++ intToStr
                                   (roundUp16 size))).totalLocalVarOffset + roundUp16 size }
                          else { s with localVarStack := [] :: s.localVarStack }) with
                     | .error e => .error e
                     | .ok s3 =>
                       .ok { (if roundUp16 size > 0 then
                                { (emit s3 ("add rsp, " ++ intToStr (roundUp16 size))) with
                                  totalLocalVarOffset :=
                                    (emit s3 ("add rsp, " ++ intToStr
                                      (roundUp16 size))).totalLocalVarOffset -
                                      roundUp16 size }
                               else s3) with
                             localVarStack :=
                               (if roundUp16 size > 0 then
                                 { (emit s3 ("add rsp, " ++ intToStr (roundUp16 size))) with
                                   totalLocalVarOffset :=
                                     (emit s3 ("add rsp, " ++ intToStr
                                       (roundUp16 size))).totalLocalVarOffset -
                                       roundUp16 size }
                                else s3).localVarStack.tail }) = .ok s' := h
      rcases hsz : calculateLocalVariableSize s (st0 :: rest) with e | size <;> rw [hsz] at h
      · cases h
      · replace h : (match visitBlockStatements n (st0 :: rest)
                         (if roundUp16 size > 0 then
                           { (emit ({ s with localVarStack := [] :: s.localVarStack } : CG)
                               ("sub rsp, " ++ intToStr (roundUp16 size))) with
                             totalLocalVarOffset :=
                               (emit ({ s with localVarStack := [] :: s.localVarStack } : CG)
                                 ("sub rsp, " ++ intToStr
                                   (roundUp16 size))).totalLocalVarOffset + roundUp16 size }
                          else { s with localVarStack := [] :: s.localVarStack }) with
                     | .error e => (.error e : Except String CG)
                     | .ok s3 =>
                       .ok { (if roundUp16 size > 0 then
                                { (emit s3 ("add rsp, " ++ intToStr (roundUp16 size))) with
                                  totalLocalVarOffset :=
                                    (emit s3 ("add rsp, " ++ intToStr
                                      (roundUp16 size))).totalLocalVarOffset -
                                      roundUp16 size }
                               else s3) with
                             localVarStack :=
                               (if roundUp16 size > 0 then
                                 { (emit s3 ("add rsp, " ++ intToStr (roundUp16 size))) with
                                   totalLocalVarOffset :=
                                     (emit s3 ("add rsp, " ++ intToStr
                                       (roundUp16 size))).totalLocalVarOffset -
                                       roundUp16 size }
                                else s3).localVarStack.tail }) = .ok s' := h
        rcases hbs : visitBlockStatements n (st0 :: rest)
            (if roundUp16 size > 0 then
              { (emit ({ s with localVarStack := [] :: s.localVarStack } : CG)
                  ("sub rsp, " ++ intToStr (roundUp16 size))) with
                totalLocalVarOffset :=
                  (emit ({ s with localVarStack := [] :: s.localVarStack } : CG)
                    ("sub rsp, " ++ intToStr
                      (roundUp16 size))).totalLocalVarOffset + roundUp16 size }
             else { s with localVarStack := [] :: s.localVarStack }) with e | s3 <;>
          rw [hbs] at h
        · cases h
        · cases h
          obtain ⟨newS, hgS, hcS⟩ := ihStmts (st0 :: rest) _ s3 hbs
          by_cases hpos : roundUp16 size > 0
          · rw [if_pos hpos] at hgS
            have hg2 : (({ (emit ({ s with localVarStack := [] :: s.localVarStack } : CG)
                    ("sub rsp, " ++ intToStr (roundUp16 size))) with
                  totalLocalVarOffset :=
                    (emit ({ s with localVarStack := [] :: s.localVarStack } : CG)
                      ("sub rsp, " ++ intToStr
                        (roundUp16 size))).totalLocalVarOffset +
                      roundUp16 size } : CG)).generated =
                s.generated ++ ["sub rsp, " ++ intToStr (roundUp16 size)] := rfl
            rw [hg2] at hgS
            refine ⟨("sub rsp, " ++ intToStr (roundUp16 size)) :: newS ++
                ["add rsp, " ++ intToStr (roundUp16 size)], ?_, ?_⟩
            · rw [if_pos hpos]
              show (emit s3 ("add rsp, " ++ intToStr (roundUp16 size))).generated =
                s.generated ++ (("sub rsp, " ++ intToStr (roundUp16 size)) :: newS ++
                  ["add rsp, " ++ intToStr (roundUp16 size)])
              rw [emit_generated, hgS]
              simp [List.append_assoc]
            · intro hnr
              rw [noRetN_block] at hnr
              rw [deltaL_append, deltaL_cons, hcS hnr, deltaL_single]
              have hc := ld_sub_add_cancel (intToStr (roundUp16 size))
              linarith
          · rw [if_neg hpos] at hgS
            have hg1 : (({ s with localVarStack := [] :: s.localVarStack } : CG)).generated =
                s.generated := rfl
            rw [hg1] at hgS
            refine ⟨newS, ?_, ?_⟩
            · rw [if_neg hpos]
              show s3.generated = s.generated ++ newS
              exact hgS
            · intro hnr
              rw [noRetN_block] at hnr
              exact hcS hnr

theorem bal_stmts_step (n : Nat)
    (ihVda : ∀ nd s s', visitVarDeclAssignNode n nd s = .ok s' →
      ∃ new, s'.generated = s.generated ++ new ∧ deltaL new = 0)
    (ihAsgn : ∀ nd s s', visitAssignNode n nd s = .ok s' →
      ∃ new, s'.generated = s.generated ++ new ∧ deltaL new = 0)
    (ihRet : ∀ nd s s', visitReturnNode n nd s = .ok s' →
      ∃ new, s'.generated = s.generated ++ new)
    (ihIf : ∀ nd s s', visitIfNode n nd s = .ok s' →
      ∃ new, s'.generated = s.generated ++ new ∧ (noRetN nd = true → deltaL new = 0))
    (ihWhile : ∀ nd s s', visitWhileNode n nd s = .ok s' →
      ∃ new, s'.generated = s.generated ++ new ∧ (noRetN nd = true → deltaL new = 0))
    (ihFcall : ∀ nd s s', visitFunctionCallNode n nd s = .ok s' →
      ∃ new, s'.generated = s.generated ++ new ∧ deltaL new = 0)
    (ihSwitch : ∀ nd s s', visitSwitchNode n nd s = .ok s' →
      ∃ new, s'.generated = s.generated ++ new ∧ (noRetN nd = true → deltaL new = 0))
    (ihStmts : ∀ l s s', visitBlockStatements n l s = .ok s' →
      ∃ new, s'.generated = s.generated ++ new ∧ (noRetL l = true → deltaL new = 0)) :
    ∀ l s s', visitBlockStatements (n + 1) l s = .ok s' →
      ∃ new, s'.generated = s.generated ++ new ∧ (noRetL l = true → deltaL new = 0) := by
  intro l s s' h
  rcases l with _ | ⟨stmt, rest⟩
  · cases h
    exact ⟨[], by simp, fun _ => rfl⟩
  · cases stmt
    case varDecl ty nm i =>
      replace h : (match addLocalVariable s nm ty with
                   | .error e => (.error e : Except String CG)
                   | .ok s1 => visitBlockStatements n rest s1) = .ok s' := h
      rcases ha : addLocalVariable s nm ty with e | s1 <;> rw [ha] at h
      · cases h
      · replace h : visitBlockStatements n rest s1 = .ok s' := h
        obtain ⟨newR, hgR, hcR⟩ := ihStmts rest s1 s' h
        have hg1 : s1.generated = s.generated := addLocalVariable_generated s nm ty s1 ha
        refine ⟨newR, ?_, ?_⟩
        · rw [hgR, hg1]
        · intro hnr
          rw [noRetL_cons, Bool.and_eq_true] at hnr
          exact hcR hnr.2
    case varDeclAssign ty nm e0 i =>
      replace h : (match visitVarDeclAssignNode n (Node.varDeclAssign ty nm e0 i) s with
                   | .error e => (.error e : Except String CG)
                   | .ok s1 => visitBlockStatements n rest s1) = .ok s' := h
      rcases hv : visitVarDeclAssignNode n (Node.varDeclAssign ty nm e0 i) s with e | s1 <;>
        rw [hv] at h
      · cases h
      · replace h : visitBlockStatements n rest s1 = .ok s' := h
        obtain ⟨newV, hgV, hdV⟩ := ihVda (Node.varDeclAssign ty nm e0 i) s s1 hv
        obtain ⟨newR, hgR, hcR⟩ := ihStmts rest s1 s' h
        refine ⟨newV ++ newR, ?_, ?_⟩
        · rw [hgR, hgV, List.append_assoc]
        · intro hnr
          rw [noRetL_cons, Bool.and_eq_true] at hnr
          rw [deltaL_append, hdV, hcR hnr.2]
          ring
    case assign nm e0 =>
      replace h : (match visitAssignNode n (Node.assign nm e0) s with
                   | .error e => (.error e : Except String CG)
                   | .ok s1 => visitBlockStatements n rest s1) = .ok s' := h
      rcases hv : visitAssignNode n (Node.assign nm e0) s with e | s1 <;> rw [hv] at h
      · cases h
      · replace h : visitBlockStatements n rest s1 = .ok s' := h
        obtain ⟨newV, hgV, hdV⟩ := ihAsgn (Node.assign nm e0) s s1 hv
        obtain ⟨newR, hgR, hcR⟩ := ihStmts rest s1 s' h
        refine ⟨newV ++ newR, ?_, ?_⟩
        · rw [hgR, hgV, List.append_assoc]
        · intro hnr
          rw [noRetL_cons, Bool.and_eq_true] at hnr
          rw [deltaL_append, hdV, hcR hnr.2]
          ring
    case ret e0 =>
      replace h : (match visitReturnNode n (Node.ret e0) s with
                   | .error e => (.error e : Except String CG)
                   | .ok s1 => visitBlockStatements n rest s1) = .ok s' := h
      rcases hv : visitReturnNode n (Node.ret e0) s with e | s1 <;> rw [hv] at h
      · cases h
      · replace h : visitBlockStatements n rest s1 = .ok s' := h
        obtain ⟨newV, hgV⟩ := ihRet (Node.ret e0) s s1 hv
        obtain ⟨newR, hgR, hcR⟩ := ihStmts rest s1 s' h
        refine ⟨newV ++ newR, ?_, ?_⟩
        · rw [hgR, hgV, List.append_assoc]
        · intro hnr
          rw [noRetL_cons, Bool.and_eq_true] at hnr
          have hf : (false = true) := hnr.1
          exact absurd hf (by decide)
    case if_ c0 b0 e0 =>
      replace h : (match visitIfNode n (Node.if_ c0 b0 e0) s with
                   | .error e => (.error e : Except String CG)
                   | .ok s1 => visitBlockStatements n rest s1) = .ok s' := h
      rcases hv : visitIfNode n (Node.if_ c0 b0 e0) s with e | s1 <;> rw [hv] at h
      · cases h
      · replace h : visitBlockStatements n rest s1 = .ok s' := h
        obtain ⟨newV, hgV, hcV⟩ := ihIf (Node.if_ c0 b0 e0) s s1 hv
        obtain ⟨newR, hgR, hcR⟩ := ihStmts rest s1 s' h
        refine ⟨newV ++ newR, ?_, ?_⟩
        · rw [hgR, hgV, List.append_assoc]
        · intro hnr
          rw [noRetL_cons, Bool.and_eq_true] at hnr
          rw [deltaL_append, hcV hnr.1, hcR hnr.2]
          ring
    case while_ c0 b0 =>
      replace h : (match visitWhileNode n (Node.while_ c0 b0) s with
                   | .error e => (.error e : Except String CG)
                   | .ok s1 => visitBlockStatements n rest s1) = .ok s' := h
      rcases hv : visitWhileNode n (Node.while_ c0 b0) s with e | s1 <;> rw [hv] at h
      · cases h
      · replace h : visitBlockStatements n rest s1 = .ok s' := h
        obtain ⟨newV, hgV, hcV⟩ := ihWhile (Node.while_ c0 b0) s s1 hv
        obtain ⟨newR, hgR, hcR⟩ := ihStmts rest s1 s' h
        refine ⟨newV ++ newR, ?_, ?_⟩
        · rw [hgR, hgV, List.append_assoc]
        · intro hnr
          rw [noRetL_cons, Bool.and_eq_true] at hnr
          rw [deltaL_append, hcV hnr.1, hcR hnr.2]
          ring
    case functionCall nm args =>
      replace h : (match visitFunctionCallNode n (Node.functionCall nm args) s with
                   | .error e => (.error e : Except String CG)
                   | .ok s1 => visitBlockStatements n rest s1) = .ok s' := h
      rcases hv : visitFunctionCallNode n (Node.functionCall nm args) s with e | s1 <;>
        rw [hv] at h
      · cases h
      · replace h : visitBlockStatements n rest s1 = .ok s' := h
        obtain ⟨newV, hgV, hdV⟩ := ihFcall (Node.functionCall nm args) s s1 hv
        obtain ⟨newR, hgR, hcR⟩ := ihStmts rest s1 s' h
        refine ⟨newV ++ newR, ?_, ?_⟩
        · rw [hgR, hgV, List.append_assoc]
        · intro hnr
          rw [noRetL_cons, Bool.and_eq_true] at hnr
          rw [deltaL_append, hdV, hcR hnr.2]
          ring
    case switch_ c0 cs =>
      replace h : (match visitSwitchNode n (Node.switch_ c0 cs) s with
                   | .error e => (.error e : Except String CG)
                   | .ok s1 => visitBlockStatements n rest s1) = .ok s' := h
      rcases hv : visitSwitchNode n (Node.switch_ c0 cs) s with e | s1 <;> rw [hv] at h
      · cases h
      · replace h : visitBlockStatements n rest s1 = .ok s' := h
        obtain ⟨newV, hgV, hcV⟩ := ihSwitch (Node.switch_ c0 cs) s s1 hv
        obtain ⟨newR, hgR, hcR⟩ := ihStmts rest s1 s' h
        refine ⟨newV ++ newR, ?_, ?_⟩
        · rw [hgR, hgV, List.append_assoc]
        · intro hnr
          rw [noRetL_cons, Bool.and_eq_true] at hnr
          rw [deltaL_append, hcV hnr.1, hcR hnr.2]
          ring
    all_goals cases h

theorem filter_enumFrom_length (l : List Node) :
    ∀ k : Nat, ((List.enumFrom k l).filter (fun p => ¬ p.1 < 6)).length = l.length - (6 - k) := by
  induction l with
  | nil => intro k; simp
  | cons x xs ih =>
    intro k
    by_cases hk : k < 6
    · rw [List.enumFrom_cons, List.filter_cons, if_neg (by simp [hk]), ih (k + 1)]
      simp only [List.length_cons]
      omega
    · rw [List.enumFrom_cons, List.filter_cons, if_pos (by simp [hk]), List.length_cons,
        ih (k + 1)]
      simp only [List.length_cons]
      omega

theorem bal_fcall_step (n : Nat)
    (ihCargs : ∀ l s s', callArgsLoop n l s = .ok s' →
      ∃ new, s'.generated = s.generated ++ new ∧
        deltaL new = -8 * (((l.filter (fun p => ¬ p.1 < 6)).length : Nat) : Int)) :
    ∀ nd s s', visitFunctionCallNode (n + 1) nd s = .ok s' →
      ∃ new, s'.generated = s.generated ++ new ∧ deltaL new = 0 := by
  intro nd s s' h
  cases nd <;> try cases h
  case functionCall name args =>
    replace h : (match callArgsLoop n args.enum.reverse s with
                 | .error e => (.error e : Except String CG)
                 | .ok s1 =>
                   .ok (emit (emit s1 ("call " ++ name))
                     ("add rsp, " ++
                       intToStr (8 * max 0 ((args.length : Int) - 6))))) = .ok s' := h
    rcases hc : callArgsLoop n args.enum.reverse s with e | s1 <;> rw [hc] at h
    · cases h
    · cases h
      obtain ⟨newC, hgC, hdC⟩ := ihCargs args.enum.reverse s s1 hc
      refine ⟨newC ++ ["call " ++ name,
          "add rsp, " ++ intToStr (8 * max 0 ((args.length : Int) - 6))], ?_, ?_⟩
      · rw [emit_generated, emit_generated, hgC]
        simp [List.append_assoc]
      · have hfl : ((args.enum.reverse.filter (fun p => ¬ p.1 < 6)).length) =
            args.length - (6 - 0) := by
          rw [List.filter_reverse, List.length_reverse]
          exact filter_enumFrom_length args 0
        rw [deltaL_append, hdC, deltaL_cons, deltaL_single, ld_call,
          lineDelta_add _ (by omega), hfl]
        omega

theorem bal_cargs_step (n : Nat)
    (ihExpr : ∀ c s s', visitExpressionNode n c s = .ok s' →
      ∃ new, s'.generated = s.generated ++ new ∧ deltaL new = 0)
    (ihCargs : ∀ l s s', callArgsLoop n l s = .ok s' →
      ∃ new, s'.generated = s.generated ++ new ∧
        deltaL new = -8 * (((l.filter (fun p => ¬ p.1 < 6)).length : Nat) : Int)) :
    ∀ l s s', callArgsLoop (n + 1) l s = .ok s' →
      ∃ new, s'.generated = s.generated ++ new ∧
        deltaL new = -8 * (((l.filter (fun p => ¬ p.1 < 6)).length : Nat) : Int) := by
  intro l s s' h
  rcases l with _ | ⟨⟨i, a⟩, rest⟩
  · cases h
    exact ⟨[], by simp, by simp [deltaL]⟩
  · replace h : (match visitExpressionNode n (some a) s with
                 | .error e => (.error e : Except String CG)
                 | .ok s1 =>
                   callArgsLoop n rest
                     (if i < 6 then emit s1 ("mov " ++ argumentRegisters.getD i "" ++ ", rax")
                      else emit s1 "push rax")) = .ok s' := h
    rcases he : visitExpressionNode n (some a) s with e | s1 <;> rw [he] at h
    · cases h
    · replace h : callArgsLoop n rest
          (if i < 6 then emit s1 ("mov " ++ argumentRegisters.getD i "" ++ ", rax")
           else emit s1 "push rax") = .ok s' := h
      obtain ⟨newE, hgE, hdE⟩ := ihExpr (some a) s s1 he
      by_cases hi : i < 6
      · rw [if_pos hi] at h
        obtain ⟨newR, hgR, hdR⟩ := ihCargs rest _ s' h
        refine ⟨newE ++ ["mov " ++ argumentRegisters.getD i "" ++ ", rax"] ++ newR, ?_, ?_⟩
        · rw [hgR, emit_generated, hgE]
          simp [List.append_assoc]
        · rw [deltaL_append, deltaL_append, hdE, hdR, deltaL_single, ld_movreg]
          have hfc : ((i, a) :: rest).filter (fun p => ¬ p.1 < 6) =
              rest.filter (fun p => ¬ p.1 < 6) := by
            rw [List.filter_cons, if_neg (by simp [hi])]
          rw [hfc]
          ring
      · rw [if_neg hi] at h
        obtain ⟨newR, hgR, hdR⟩ := ihCargs rest _ s' h
        refine ⟨newE ++ ["push rax"] ++ newR, ?_, ?_⟩
        · rw [hgR, emit_generated, hgE]
          simp [List.append_assoc]
        · rw [deltaL_append, deltaL_append, hdE, hdR, deltaL_single]
          have hfc : ((i, a) :: rest).filter (fun p => ¬ p.1 < 6) =
              (i, a) :: rest.filter (fun p => ¬ p.1 < 6) := by
            rw [List.filter_cons, if_pos (by simp [hi])]
          rw [hfc, List.length_cons]
          have hpush : lineDelta "push rax" = -8 := by decide
          rw [hpush]
          push_cast
          ring

theorem bal_phase1_step (n : Nat)
    (ihBlock : ∀ nd s s', visitBlockNode n nd s = .ok s' →
      ∃ new, s'.generated = s.generated ++ new ∧ (noRetN nd = true → deltaL new = 0))
    (ihP1 : ∀ cs ls d s s', switchComparePhase n cs ls d s = .ok s' →
      ∃ new, s'.generated = s.generated ++ new ∧ (noRetL cs = true → deltaL new = 0)) :
    ∀ cs ls d s s', switchComparePhase (n + 1) cs ls d s = .ok s' →
      ∃ new, s'.generated = s.generated ++ new ∧ (noRetL cs = true → deltaL new = 0) := by
  intro cs ls d s s' h
  rcases cs with _ | ⟨c, cs'⟩
  · cases h
    exact ⟨[], by simp, fun _ => rfl⟩
  · cases c
    case case_ v body =>
      replace h : (match visitBlockNode n body s with
                   | .error e => (.error e : Except String CG)
                   | .ok s1 =>
                     switchComparePhase n cs' ls.tail d
                       (emit (emit s1 "cmp rbx, rax")
                         ("je " ++ ls.getD 0 ""))) = .ok s' := h
      rcases hb : visitBlockNode n body s with e | s1 <;> rw [hb] at h
      · cases h
      · replace h : switchComparePhase n cs' ls.tail d
            (emit (emit s1 "cmp rbx, rax") ("je " ++ ls.getD 0 "")) = .ok s' := h
        obtain ⟨newB, hgB, hcB⟩ := ihBlock body s s1 hb
        obtain ⟨newP, hgP, hcP⟩ := ihP1 cs' ls.tail d _ s' h
        refine ⟨newB ++ ["cmp rbx, rax", "je " ++ ls.getD 0 ""] ++ newP, ?_, ?_⟩
        · rw [hgP, emit_generated, emit_generated, hgB]
          simp [List.append_assoc]
        · intro hnr
          rw [noRetL_cons, Bool.and_eq_true, noRetN_case, Bool.and_eq_true] at hnr
          have hcmp : lineDelta "cmp rbx, rax" = 0 := by decide
          simp only [deltaL_append, deltaL_cons, deltaL_nil, hcB hnr.1.2, hcP hnr.2,
            hcmp, ld_je]
          ring
    case default_ b =>
      replace h : switchComparePhase n cs' ls.tail d (emit s ("jmp " ++ d)) = .ok s' := h
      obtain ⟨newP, hgP, hcP⟩ := ihP1 cs' ls.tail d _ s' h
      refine ⟨["jmp " ++ d] ++ newP, ?_, ?_⟩
      · rw [hgP, emit_generated]
        simp [List.append_assoc]
      · intro hnr
        rw [noRetL_cons, Bool.and_eq_true] at hnr
        simp only [deltaL_append, deltaL_cons, deltaL_nil, hcP hnr.2, ld_jmp]
        ring
    all_goals
      (replace h : switchComparePhase n cs' ls.tail d s = .ok s' := h
       obtain ⟨newP, hgP, hcP⟩ := ihP1 cs' ls.tail d s s' h
       refine ⟨newP, hgP, ?_⟩
       intro hnr
       rw [noRetL_cons, Bool.and_eq_true] at hnr
       exact hcP hnr.2)

theorem bal_phase2_step (n : Nat)
    (ihBlock : ∀ nd s s', visitBlockNode n nd s = .ok s' →
      ∃ new, s'.generated = s.generated ++ new ∧ (noRetN nd = true → deltaL new = 0))
    (ihP2 : ∀ cs ls s s', switchLabelPhase n cs ls s = .ok s' →
      ∃ new, s'.generated = s.generated ++ new ∧ (noRetL cs = true → deltaL new = 0)) :
    ∀ cs ls s s', switchLabelPhase (n + 1) cs ls s = .ok s' →
      ∃ new, s'.generated = s.generated ++ new ∧ (noRetL cs = true → deltaL new = 0) := by
  intro cs ls s s' h
  rcases cs with _ | ⟨c, cs'⟩
  · cases h
    exact ⟨[], by simp, fun _ => rfl⟩
  · cases c
    case case_ v body =>
      replace h : (match visitBlockNode n body (emit s (ls.getD 0 "" ++ ":")) with
                   | .error e => (.error e : Except String CG)
                   | .ok s2 => switchLabelPhase n cs' ls.tail s2) = .ok s' := h
      rcases hb : visitBlockNode n body (emit s (ls.getD 0 "" ++ ":")) with e | s2 <;>
        rw [hb] at h
      · cases h
      · replace h : switchLabelPhase n cs' ls.tail s2 = .ok s' := h
        obtain ⟨newB, hgB, hcB⟩ := ihBlock body _ s2 hb
        obtain ⟨newP, hgP, hcP⟩ := ihP2 cs' ls.tail s2 s' h
        rw [emit_generated] at hgB
        refine ⟨[ls.getD 0 "" ++ ":"] ++ newB ++ newP, ?_, ?_⟩
        · rw [hgP, hgB]
          simp [List.append_assoc]
        · intro hnr
          rw [noRetL_cons, Bool.and_eq_true, noRetN_case, Bool.and_eq_true] at hnr
          simp only [deltaL_append, deltaL_cons, deltaL_nil, hcB hnr.1.2, hcP hnr.2, ld_label]
          ring
    all_goals
      (replace h : switchLabelPhase n cs' ls.tail (emit s (ls.getD 0 "" ++ ":")) = .ok s' := h
       obtain ⟨newP, hgP, hcP⟩ := ihP2 cs' ls.tail _ s' h
       rw [emit_generated] at hgP
       refine ⟨[ls.getD 0 "" ++ ":"] ++ newP, ?_, ?_⟩
       · rw [hgP]
         simp [List.append_assoc]
       · intro hnr
         rw [noRetL_cons, Bool.and_eq_true] at hnr
         simp only [deltaL_append, deltaL_cons, deltaL_nil, hcP hnr.2, ld_label]
         ring)

theorem bal_phase3_step (n : Nat)
    (ihBlock : ∀ nd s s', visitBlockNode n nd s = .ok s' →
      ∃ new, s'.generated = s.generated ++ new ∧ (noRetN nd = true → deltaL new = 0))
    (ihP3 : ∀ cs s s', switchDefaultPhase n cs s = .ok s' →
      ∃ new, s'.generated = s.generated ++ new ∧ (noRetL cs = true → deltaL new = 0)) :
    ∀ cs s s', switchDefaultPhase (n + 1) cs s = .ok s' →
      ∃ new, s'.generated = s.generated ++ new ∧ (noRetL cs = true → deltaL new = 0) := by
  intro cs s s' h
  rcases cs with _ | ⟨c, cs'⟩
  · cases h
    exact ⟨[], by simp, fun _ => rfl⟩
  · cases c
    case default_ body =>
      replace h : visitBlockNode n body s = .ok s' := h
      obtain ⟨newB, hgB, hcB⟩ := ihBlock body s s' h
      refine ⟨newB, hgB, ?_⟩
      intro hnr
      rw [noRetL_cons, Bool.and_eq_true, noRetN_default] at hnr
      exact hcB hnr.1
    all_goals
      (replace h : switchDefaultPhase n cs' s = .ok s' := h
       obtain ⟨newP, hgP, hcP⟩ := ihP3 cs' s s' h
       refine ⟨newP, hgP, ?_⟩
       intro hnr
       rw [noRetL_cons, Bool.and_eq_true] at hnr
       exact hcP hnr.2)

theorem bal_switch_step (n : Nat)
    (ihExpr : ∀ c s s', visitExpressionNode n c s = .ok s' →
      ∃ new, s'.generated = s.generated ++ new ∧ deltaL new = 0)
    (ihP1 : ∀ cs ls d s s', switchComparePhase n cs ls d s = .ok s' →
      ∃ new, s'.generated = s.generated ++ new ∧ (noRetL cs = true → deltaL new = 0))
    (ihP2 : ∀ cs ls s s', switchLabelPhase n cs ls s = .ok s' →
      ∃ new, s'.generated = s.generated ++ new ∧ (noRetL cs = true → deltaL new = 0))
    (ihP3 : ∀ cs s s', switchDefaultPhase n cs s = .ok s' →
      ∃ new, s'.generated = s.generated ++ new ∧ (noRetL cs = true → deltaL new = 0)) :
    ∀ nd s s', visitSwitchNode (n + 1) nd s = .ok s' →
      ∃ new, s'.generated = s.generated ++ new ∧ (noRetN nd = true → deltaL new = 0) := by
  intro nd s s' h
  cases nd <;> try cases h
  case switch_ cond cases =>
    replace h : (match generateLabels cases.length
                     ({ s with labelCounter := s.labelCounter + 1 + 1 } : CG) with
                 | (caseLabels, sc) =>
                   match visitExpressionNode n (some cond) sc with
                   | .error e => (.error e : Except String CG)
                   | .ok s1 =>
                     match switchComparePhase n cases caseLabels
                         ("L" ++ natToStr (s.labelCounter + 1)) (emit s1 "mov rbx, rax") with
                     | .error e => .error e
                     | .ok s3 =>
                       match switchLabelPhase n cases caseLabels
                           (emit s3 ("jmp " ++ ("L" ++ natToStr s.labelCounter))) with
                       | .error e => .error e
                       | .ok s5 =>
                         match switchDefaultPhase n cases
                             (emit s5 (("L" ++ natToStr (s.labelCounter + 1)) ++ ":")) with
                         | .error e => .error e
                         | .ok s7 =>
                           .ok (emit s7
                             (("L" ++ natToStr s.labelCounter) ++ ":"))) = .ok s' := h
    rcases hgl : generateLabels cases.length
        ({ s with labelCounter := s.labelCounter + 1 + 1 } : CG) with ⟨caseLabels, sc⟩
    rw [hgl] at h
    have hscg : sc.generated = s.generated := by
      have hsc := generateLabels_generated cases.length
        ({ s with labelCounter := s.labelCounter + 1 + 1 } : CG)
      rw [hgl] at hsc
      exact hsc
    replace h : (match visitExpressionNode n (some cond) sc with
                 | .error e => (.error e : Except String CG)
                 | .ok s1 =>
                   match switchComparePhase n cases caseLabels
                       ("L" ++ natToStr (s.labelCounter + 1)) (emit s1 "mov rbx, rax") with
                   | .error e => .error e
                   | .ok s3 =>
                     match switchLabelPhase n cases caseLabels
                         (emit s3 ("jmp " ++ ("L" ++ natToStr s.labelCounter))) with
                     | .error e => .error e
                     | .ok s5 =>
                       match switchDefaultPhase n cases
                           (emit s5 (("L" ++ natToStr (s.labelCounter + 1)) ++ ":")) with
                       | .error e => .error e
                       | .ok s7 =>
                         .ok (emit s7
                           (("L" ++ natToStr s.labelCounter) ++ ":"))) = .ok s' := h
    rcases he : visitExpressionNode n (some cond) sc with e | s1 <;> rw [he] at h
    · cases h
    · replace h : (match switchComparePhase n cases caseLabels
                       ("L" ++ natToStr (s.labelCounter + 1)) (emit s1 "mov rbx, rax") with
                   | .error e => (.error e : Except String CG)
                   | .ok s3 =>
                     match switchLabelPhase n cases caseLabels
                         (emit s3 ("jmp " ++ ("L" ++ natToStr s.labelCounter))) with
                     | .error e => .error e
                     | .ok s5 =>
                       match switchDefaultPhase n cases
                           (emit s5 (("L" ++ natToStr (s.labelCounter + 1)) ++ ":")) with
                       | .error e => .error e
                       | .ok s7 =>
                         .ok (emit s7
                           (("L" ++ natToStr s.labelCounter) ++ ":"))) = .ok s' := h
      rcases hp1 : switchComparePhase n cases caseLabels
          ("L" ++ natToStr (s.labelCounter + 1)) (emit s1 "mov rbx, rax") with e | s3 <;>
        rw [hp1] at h
      · cases h
      · replace h : (match switchLabelPhase n cases caseLabels
                         (emit s3 ("jmp " ++ ("L" ++ natToStr s.labelCounter))) with
                     | .error e => (.error e : Except String CG)
                     | .ok s5 =>
                       match switchDefaultPhase n cases
                           (emit s5 (("L" ++ natToStr (s.labelCounter + 1)) ++ ":")) with
                       | .error e => .error e
                       | .ok s7 =>
                         .ok (emit s7
                           (("L" ++ natToStr s.labelCounter) ++ ":"))) = .ok s' := h
        rcases hp2 : switchLabelPhase n cases caseLabels
            (emit s3 ("jmp " ++ ("L" ++ natToStr s.labelCounter))) with e | s5 <;>
          rw [hp2] at h
        · cases h
        · replace h : (match switchDefaultPhase n cases
                           (emit s5 (("L" ++ natToStr (s.labelCounter + 1)) ++ ":")) with
                       | .error e => (.error e : Except String CG)
                       | .ok s7 =>
                         .ok (emit s7
                           (("L" ++ natToStr s.labelCounter) ++ ":"))) = .ok s' := h
          rcases hp3 : switchDefaultPhase n cases
              (emit s5 (("L" ++ natToStr (s.labelCounter + 1)) ++ ":")) with e | s7 <;>
            rw [hp3] at h
          · cases h
          · cases h
            obtain ⟨newE, hgE, hdE⟩ := ihExpr (some cond) sc s1 he
            obtain ⟨newP1, hgP1, hcP1⟩ := ihP1 cases caseLabels _ _ s3 hp1
            obtain ⟨newP2, hgP2, hcP2⟩ := ihP2 cases caseLabels _ s5 hp2
            obtain ⟨newP3, hgP3, hcP3⟩ := ihP3 cases _ s7 hp3
            rw [hscg] at hgE
            rw [emit_generated, hgE] at hgP1
            rw [emit_generated, hgP1] at hgP2
            rw [emit_generated, hgP2] at hgP3
            refine ⟨newE ++ ["mov rbx, rax"] ++ newP1 ++
                ["jmp " ++ ("L" ++ natToStr s.labelCounter)] ++ newP2 ++
                [("L" ++ natToStr (s.labelCounter + 1)) ++ ":"] ++ newP3 ++
                [("L" ++ natToStr s.labelCounter) ++ ":"], ?_, ?_⟩
            · rw [emit_generated, hgP3]
              simp [List.append_assoc]
            · intro hnr
              rw [noRetN_switch, Bool.and_eq_true] at hnr
              have hmov : lineDelta "mov rbx, rax" = 0 := by decide
              simp only [deltaL_append, deltaL_cons, deltaL_nil, hdE, hcP1 hnr.2,
                hcP2 hnr.2, hcP3 hnr.2, hmov, ld_jmp, ld_label]
              ring

/-- The emission/balance invariant holds at every fuel level. -/
theorem balAll : ∀ n, BalProp n := by
  intro n
  induction n with
  | zero =>
    refine ⟨?_, ?_, ?_, ?_, ?_, ?_, ?_, ?_, ?_, ?_, ?_, ?_, ?_, ?_, ?_⟩ <;>
      (intros; rename_i h; cases h)
  | succ m ih =>
    exact
      { expr := bal_expr_step m ih.operand
        operand := bal_operand_step m ih.expr
        vda := bal_vda_step m ih.expr
        asgn := bal_asgn_step m ih.expr
        retn := bal_ret_step m ih.expr
        ifn := bal_if_step m ih.expr ih.blockn ih.ifn
        whilen := bal_while_step m ih.expr ih.blockn
        blockn := bal_block_step m ih.stmts
        stmts := bal_stmts_step m ih.vda ih.asgn ih.retn ih.ifn ih.whilen ih.fcall
          ih.switchn ih.stmts
        fcall := bal_fcall_step m ih.cargs
        cargs := bal_cargs_step m ih.expr ih.cargs
        switchn := bal_switch_step m ih.expr ih.phase1 ih.phase2 ih.phase3
        phase1 := bal_phase1_step m ih.blockn ih.phase1
        phase2 := bal_phase2_step m ih.blockn ih.phase2
        phase3 := bal_phase3_step m ih.blockn ih.phase3 }

/-- Result state of `visitBlockNode` on a one-declaration block from the
fresh generator state. -/
def c8OutState : CG :=
  { generated := ["sub rsp, 16", "add rsp, 16"], localVarOffset := -4,
    totalLocalVarOffset := 4, labelCounter := 0, localVarStack := [],
    loopContextStack := [], currentFunctionName := "", currentArgOffset := 0,
    typedefs := [], structDefinitions := [] }

/-- **C8**: whenever `visitBlockNode` succeeds on a block, the amount
subtracted from `rsp` at block entry is the sum of the sizes of the
`VarDecl`/`VarDeclAssign` statements directly in the block
(`calculateLocalVariableSize`) rounded up to a multiple of 16, exactly the
same amount is added back at block exit (the emitted lines for a non-empty
block with a positive allocation start with `sub rsp, N` and end with
`add rsp, N` for that same `N`), and on every path that does not pass
through a `return` the net `rsp` change of the emitted lines is zero. -/
theorem c8_block_rsp_balance (n : Nat) (stmts : List Node) (s s' : CG)
    (h : visitBlockNode (n + 1) (Node.block stmts) s = .ok s') :
    ∃ size, calculateLocalVariableSize s stmts = .ok size ∧
      ∃ new, s'.generated = s.generated ++ new ∧
        (noRetL stmts = true → deltaL new = 0) ∧
        (stmts ≠ [] → roundUp16 size > 0 →
          ∃ mid, new = ("sub rsp, " ++ intToStr (roundUp16 size)) :: mid ++
              ["add rsp, " ++ intToStr (roundUp16 size)] ∧
            (noRetL stmts = true → deltaL mid = 0)) := by
  rcases stmts with _ | ⟨st0, rest⟩
  · replace h : (.ok ({ s with localVarStack := [] :: s.localVarStack } : CG) :
        Except String CG) = .ok s' := h
    cases h
    exact ⟨0, rfl, [], by simp, fun _ => rfl, fun hne _ => absurd rfl hne⟩
  · replace h : (match calculateLocalVariableSize s (st0 :: rest) with
                 | .error e => (.error e : Except String CG)
                 | .ok size =>
                   match visitBlockStatements n (st0 :: rest)
                       (if roundUp16 size > 0 then
                         { (emit ({ s with localVarStack := [] :: s.localVarStack } : CG)
                             ("sub rsp, " ++ intToStr (roundUp16 size))) with
                           totalLocalVarOffset :=
                             (emit ({ s with localVarStack := [] :: s.localVarStack } : CG)
                               ("sub rsp, " ++ intToStr
                                 (roundUp16 size))).totalLocalVarOffset + roundUp16 size }
                        else { s with localVarStack := [] :: s.localVarStack }) with
                   | .error e => .error e
                   | .ok s3 =>
                     .ok { (if roundUp16 size > 0 then
                              { (emit s3 ("add rsp, " ++ intToStr (roundUp16 size))) with
                                totalLocalVarOffset :=
                                  (emit s3 ("add rsp, " ++ intToStr
                                    (roundUp16 size))).totalLocalVarOffset -
                                    roundUp16 size }
                             else s3) with
                           localVarStack :=
                             (if roundUp16 size > 0 then
                               { (emit s3 ("add rsp, " ++ intToStr (roundUp16 size))) with
                                 totalLocalVarOffset :=
                                   (emit s3 ("add rsp, " ++ intToStr
                                     (roundUp16 size))).totalLocalVarOffset -
                                     roundUp16 size }
                              else s3).localVarStack.tail }) = .ok s' := h
    rcases hsz : calculateLocalVariableSize s (st0 :: rest) with e | size <;> rw [hsz] at h
    · cases h
    · replace h : (match visitBlockStatements n (st0 :: rest)
                       (if roundUp16 size > 0 then
                         { (emit ({ s with localVarStack := [] :: s.localVarStack } : CG)
                             ("sub rsp, " ++ intToStr (roundUp16 size))) with
                           totalLocalVarOffset :=
                             (emit ({ s with localVarStack := [] :: s.localVarStack } : CG)
                               ("sub rsp, " ++ intToStr
                                 (roundUp16 size))).totalLocalVarOffset + roundUp16 size }
                        else { s with localVarStack := [] :: s.localVarStack }) with
                   | .error e => (.error e : Except String CG)
                   | .ok s3 =>
                     .ok { (if roundUp16 size > 0 then
                              { (emit s3 ("add rsp, " ++ intToStr (roundUp16 size))) with
                                totalLocalVarOffset :=
                                  (emit s3 ("add rsp, " ++ intToStr
                                    (roundUp16 size))).totalLocalVarOffset -
                                    roundUp16 size }
                             else s3) with
                           localVarStack :=
                             (if roundUp16 size > 0 then
                               { (emit s3 ("add rsp, " ++ intToStr (roundUp16 size))) with
                                 totalLocalVarOffset :=
                                   (emit s3 ("add rsp, " ++ intToStr
                                     (roundUp16 size))).totalLocalVarOffset -
                                     roundUp16 size }
                              else s3).localVarStack.tail }) = .ok s' := h
      rcases hbs : visitBlockStatements n (st0 :: rest)
          (if roundUp16 size > 0 then
            { (emit ({ s with localVarStack := [] :: s.localVarStack } : CG)
                ("sub rsp, " ++ intToStr (roundUp16 size))) with
              totalLocalVarOffset :=
                (emit ({ s with localVarStack := [] :: s.localVarStack } : CG)
                  ("sub rsp, " ++ intToStr
                    (roundUp16 size))).totalLocalVarOffset + roundUp16 size }
           else { s with localVarStack := [] :: s.localVarStack }) with e | s3 <;>
        rw [hbs] at h
      · cases h
      · cases h
        obtain ⟨newS, hgS, hcS⟩ := (balAll n).stmts (st0 :: rest) _ s3 hbs
        by_cases hpos : roundUp16 size > 0
        · rw [if_pos hpos] at hgS
          have hg2 : (({ (emit ({ s with localVarStack := [] :: s.localVarStack } : CG)
                  ("sub rsp, " ++ intToStr (roundUp16 size))) with
                totalLocalVarOffset :=
                  (emit ({ s with localVarStack := [] :: s.localVarStack } : CG)
                    ("sub rsp, " ++ intToStr
                      (roundUp16 size))).totalLocalVarOffset +
                    roundUp16 size } : CG)).generated =
              s.generated ++ ["sub rsp, " ++ intToStr (roundUp16 size)] := rfl
          rw [hg2] at hgS
          refine ⟨size, rfl, ("sub rsp, " ++ intToStr (roundUp16 size)) :: newS ++
              ["add rsp, " ++ intToStr (roundUp16 size)], ?_, ?_, ?_⟩
          · rw [if_pos hpos]
            show (emit s3 ("add rsp, " ++ intToStr (roundUp16 size))).generated =
              s.generated ++ (("sub rsp, " ++ intToStr (roundUp16 size)) :: newS ++
                ["add rsp, " ++ intToStr (roundUp16 size)])
            rw [emit_generated, hgS]
            simp [List.append_assoc]
          · intro hnr
            rw [deltaL_append, deltaL_cons, hcS hnr, deltaL_single]
            have hc := ld_sub_add_cancel (intToStr (roundUp16 size))
            linarith
          · intro _ _
            exact ⟨newS, rfl, fun hnr => hcS hnr⟩
        · rw [if_neg hpos] at hgS
          have hg1 : (({ s with localVarStack := [] :: s.localVarStack } : CG)).generated =
              s.generated := rfl
          rw [hg1] at hgS
          refine ⟨size, rfl, newS, ?_, ?_, ?_⟩
          · rw [if_neg hpos]
            show s3.generated = s.generated ++ newS
            exact hgS
          · intro hnr
            exact hcS hnr
          · intro _ hpos'
            exact absurd hpos' hpos

/-- Witness: the block `{ int32 x; }` from the fresh generator state
allocates `roundUp16 4 = 16` bytes, emits exactly
`sub rsp, 16` / `add rsp, 16`, and is `rsp`-neutral. -/
theorem c8_block_rsp_balance_witness :
    ∃ size, calculateLocalVariableSize (mkCG [] []) [Node.varDecl "int32" "x" false] =
        .ok size ∧
      ∃ new, c8OutState.generated = (mkCG [] []).generated ++ new ∧
        (noRetL [Node.varDecl "int32" "x" false] = true → deltaL new = 0) ∧
        ([Node.varDecl "int32" "x" false] ≠ ([] : List Node) → roundUp16 size > 0 →
          ∃ mid, new = ("sub rsp, " ++ intToStr (roundUp16 size)) :: mid ++
              ["add rsp, " ++ intToStr (roundUp16 size)] ∧
            (noRetL [Node.varDecl "int32" "x" false] = true → deltaL mid = 0)) :=
  c8_block_rsp_balance 2 [Node.varDecl "int32" "x" false] (mkCG [] []) c8OutState rfl
